import Mathlib

/-!
Shallow embedding of the DAGShield on-ledger subsystem:
the DAGShieldToken staking/supply contract, the DePINNodeRegistry
node/reputation contract, and the DAGShieldOracle DAG/consensus contract.
Machine integers (uint256, uint8) are modelled as `Nat`; Solidity 0.8
checked subtraction is modelled by explicit guards returning `none`
(a revert); `bytes32` values and addresses are modelled as `Nat`
(for the token, addresses are an arbitrary `DecidableEq` type so the
stake sums can be formed over a `Fintype`).  An operation returning
`none` models a reverted call: no state change.
-/

namespace DAGShield

/-- Sum of a pointwise `Function.update` against the sum of the original
function, in subtraction-free form. -/
theorem sum_update_add {α : Type} [DecidableEq α] [Fintype α]
    (f : α → Nat) (i : α) (v : Nat) :
    (∑ a, Function.update f i v a) + f i = (∑ a, f a) + v := by
  classical
  have hmem : i ∈ Finset.univ := Finset.mem_univ (α := α) i
  have h1 : (∑ a, Function.update f i v a)
      = v + ∑ a ∈ Finset.univ.erase i, f a := by
    rw [Finset.sum_update_of_mem hmem]
    rw [Finset.sdiff_singleton_eq_erase]
  have h2 : f i + ∑ a ∈ Finset.univ.erase i, f a = ∑ a, f a :=
    Finset.add_sum_erase Finset.univ f hmem
  omega

namespace Token

/-- MAX_SUPPLY of the token: 1 billion units of 10^18. -/
def MAX_SUPPLY : Nat := 1000000000 * 10 ^ 18

/-- INITIAL_SUPPLY minted to the deployer: 100 million units of 10^18. -/
def INITIAL_SUPPLY : Nat := 100000000 * 10 ^ 18

/-- STAKING_APY in basis points (12.50%). -/
def STAKING_APY : Nat := 1250

/-- MIN_STAKE_AMOUNT: 1000 tokens. -/
def MIN_STAKE_AMOUNT : Nat := 1000 * 10 ^ 18

/-- UNSTAKE_COOLDOWN: 7 days in seconds. -/
def UNSTAKE_COOLDOWN : Nat := 7 * 86400

/-- Seconds in `365 days`. -/
def SECONDS_PER_YEAR : Nat := 365 * 86400

/-- StakeInfo struct of DAGShieldToken. -/
structure StakeInfo where
  amount : Nat
  timestamp : Nat
  rewards : Nat
  unstakeTime : Nat
  isActive : Bool
deriving DecidableEq, Repr

/-- Default (all-zero) stake slot of the `stakes` mapping. -/
def StakeInfo.zero : StakeInfo := ⟨0, 0, 0, 0, false⟩

/-- NodeInfo struct of DAGShieldToken (the DePIN node records the token
contract itself keeps).  A mapping slot that was never written is `none`,
matching the all-zero struct whose `isActive` is false. -/
structure NodeInfo (α : Type) where
  owner : α
  stakedAmount : Nat
  threatsDetected : Nat
  performance : Nat
  lastRewardClaim : Nat
  isActive : Bool
  region : String
deriving DecidableEq, Repr

/-- Full storage of the DAGShieldToken contract, together with the two
fixed addresses the code refers to (`address(this)` and the Ownable
owner).  ERC20 balances are a total map from addresses to `Nat`. -/
structure State (α : Type) where
  contractAddr : α
  ownerAddr : α
  balances : α → Nat
  totalSupply : Nat
  stakes : α → StakeInfo
  nodes : Nat → Option (NodeInfo α)
  userNodes : α → List Nat
  totalStaked : Nat
  totalNodes : Nat
  totalThreatsDetected : Nat
  rewardPool : Nat
  paused : Bool

/-- ERC20 `_transfer` on the balance map (the caller has already checked
`amt ≤ b f`): subtract at `f`, then add at `t` in the updated map, so a
self-transfer is a no-op. -/
def transferBal {α : Type} [DecidableEq α] (b : α → Nat) (f t : α) (amt : Nat) :
    α → Nat :=
  let b1 := Function.update b f (b f - amt)
  Function.update b1 t (b1 t + amt)

/-- ERC20 `_mint` on the balance map. -/
def mintBal {α : Type} [DecidableEq α] (b : α → Nat) (t : α) (amt : Nat) :
    α → Nat :=
  Function.update b t (b t + amt)

/-- The reward `_claimStakingRewards` computes for `user` at time `now`:
`(amount * STAKING_APY / 10000) * (now - timestamp) / 365 days`. -/
def stakingRewardOf {α : Type} (s : State α) (user : α) (now : Nat) : Nat :=
  (s.stakes user).amount * STAKING_APY / 10000 *
    (now - (s.stakes user).timestamp) / SECONDS_PER_YEAR

/-- DAGShieldToken._claimStakingRewards.  Returns `none` only when the
checked subtraction `block.timestamp - userStake.timestamp` would
underflow; otherwise it settles the accrued reward, skipping the mint
entirely (without an error) when the supply cap would be exceeded or the
reward is zero. -/
def _claimStakingRewards {α : Type} [DecidableEq α]
    (s : State α) (user : α) (now : Nat) : Option (State α) :=
  let st := s.stakes user
  if st.isActive = false ∨ st.amount = 0 then some s
  else if now < st.timestamp then none
  else
    let timeStaked := now - st.timestamp
    let annualReward := st.amount * STAKING_APY / 10000
    let reward := annualReward * timeStaked / SECONDS_PER_YEAR
    if 0 < reward ∧ s.totalSupply + reward ≤ MAX_SUPPLY then
      some { s with
        balances := mintBal s.balances user reward
        totalSupply := s.totalSupply + reward
        stakes := Function.update s.stakes user
          { st with rewards := st.rewards + reward, timestamp := now } }
    else some s

/-- DAGShieldToken.stake. -/
def stake {α : Type} [DecidableEq α]
    (s : State α) (caller : α) (amount now : Nat) : Option (State α) :=
  if s.paused = true then none
  else if amount < MIN_STAKE_AMOUNT then none
  else if s.balances caller < amount then none
  else
    match (if (s.stakes caller).isActive = true
           then _claimStakingRewards s caller now else some s) with
    | none => none
    | some s1 =>
      if s1.balances caller < amount then none
      else
        let st := s1.stakes caller
        some { s1 with
          balances := transferBal s1.balances caller s1.contractAddr amount
          stakes := Function.update s1.stakes caller
            { st with amount := st.amount + amount, timestamp := now,
                      isActive := true }
          totalStaked := s1.totalStaked + amount }

/-- DAGShieldToken.unstake.  The cooldown timestamp is recorded but the
escrowed tokens are transferred back in the same call. -/
def unstake {α : Type} [DecidableEq α]
    (s : State α) (caller : α) (amount now : Nat) : Option (State α) :=
  if (s.stakes caller).isActive = false then none
  else if (s.stakes caller).amount < amount then none
  else
    match _claimStakingRewards s caller now with
    | none => none
    | some s1 =>
      let st := s1.stakes caller
      if s1.totalStaked < amount then none
      else if s1.balances s1.contractAddr < amount then none
      else
        some { s1 with
          stakes := Function.update s1.stakes caller
            { st with unstakeTime := now + UNSTAKE_COOLDOWN,
                      amount := st.amount - amount,
                      isActive := if st.amount - amount = 0 then false
                                  else st.isActive }
          totalStaked := s1.totalStaked - amount
          balances := transferBal s1.balances s1.contractAddr caller amount }

/-- DAGShieldToken.claimRewards. -/
def claimRewards {α : Type} [DecidableEq α]
    (s : State α) (caller : α) (now : Nat) : Option (State α) :=
  _claimStakingRewards s caller now

/-- DAGShieldToken.deployNode.  The keccak-generated node id is supplied
by the environment as `nodeId`. -/
def deployNode {α : Type} [DecidableEq α]
    (s : State α) (caller : α) (stakeAmount : Nat) (region : String)
    (now nodeId : Nat) : Option (State α) :=
  if s.paused = true then none
  else if stakeAmount < MIN_STAKE_AMOUNT then none
  else if s.balances caller < stakeAmount then none
  else
    some { s with
      balances := transferBal s.balances caller s.contractAddr stakeAmount
      nodes := Function.update s.nodes nodeId
        (some ⟨caller, stakeAmount, 0, 10000, now, true, region⟩)
      userNodes := Function.update s.userNodes caller
        (s.userNodes caller ++ [nodeId])
      totalNodes := s.totalNodes + 1
      totalStaked := s.totalStaked + stakeAmount }

/-- The reward DAGShieldToken.reportThreat computes for a node record. -/
def threatRewardOf {α : Type} (node : NodeInfo α)
    (threatCount confidence : Nat) : Nat :=
  threatCount * 10 * 10 ^ 18 * (node.performance * confidence / 10000) / 10000

/-- DAGShieldToken.reportThreat (onlyOwner).  The mint is skipped, with
no error, when it would push the total supply above MAX_SUPPLY. -/
def reportThreat {α : Type} [DecidableEq α]
    (s : State α) (caller : α) (nodeId threatCount confidence : Nat) :
    Option (State α) :=
  if caller = s.ownerAddr then
    match s.nodes nodeId with
    | none => none
    | some node =>
      if node.isActive = false then none
      else
        let reward := threatRewardOf node threatCount confidence
        let s1 := { s with
          nodes := Function.update s.nodes nodeId
            (some { node with
              threatsDetected := node.threatsDetected + threatCount })
          totalThreatsDetected := s.totalThreatsDetected + threatCount }
        if s1.totalSupply + reward ≤ MAX_SUPPLY then
          some { s1 with
            balances := mintBal s1.balances node.owner reward
            totalSupply := s1.totalSupply + reward }
        else some s1
  else none

/-- Constructor state of DAGShieldToken: the deployer receives the
initial supply and becomes the Ownable owner. -/
def initState {α : Type} [DecidableEq α] (deployer contractA : α) : State α :=
  { contractAddr := contractA
    ownerAddr := deployer
    balances := Function.update (fun _ => 0) deployer INITIAL_SUPPLY
    totalSupply := INITIAL_SUPPLY
    stakes := fun _ => StakeInfo.zero
    nodes := fun _ => none
    userNodes := fun _ => []
    totalStaked := 0
    totalNodes := 0
    totalThreatsDetected := 0
    rewardPool := INITIAL_SUPPLY / 10
    paused := false }

/-- One externally-invoked operation of the token contract, among the
five the supply-cap claim quantifies over.  The caller is an external
account: never `address(this)`, which holds only escrowed stake. -/
inductive Step {α : Type} [DecidableEq α] : State α → State α → Prop
| stake (s s' : State α) (caller : α) (amount now : Nat) :
    caller ≠ s.contractAddr → stake s caller amount now = some s' →
    Step s s'
| unstake (s s' : State α) (caller : α) (amount now : Nat) :
    caller ≠ s.contractAddr → unstake s caller amount now = some s' →
    Step s s'
| claimRewards (s s' : State α) (caller : α) (now : Nat) :
    caller ≠ s.contractAddr → claimRewards s caller now = some s' →
    Step s s'
| deployNode (s s' : State α) (caller : α) (stakeAmount : Nat)
    (region : String) (now nodeId : Nat) :
    caller ≠ s.contractAddr →
    deployNode s caller stakeAmount region now nodeId = some s' →
    Step s s'
| reportThreat (s s' : State α) (caller : α)
    (nodeId threatCount confidence : Nat) :
    caller ≠ s.contractAddr →
    reportThreat s caller nodeId threatCount confidence = some s' →
    Step s s'

/-- States reachable from `s0` by the five token operations. -/
inductive Reach {α : Type} [DecidableEq α] (s0 : State α) : State α → Prop
| refl : Reach s0 s0
| step {s s' : State α} : Reach s0 s → Step s s' → Reach s0 s'

/-- Pointwise value of `transferBal` away from both endpoints. -/
theorem transferBal_other {α : Type} [DecidableEq α] (b : α → Nat) (f t a : α)
    (amt : Nat) (hf : a ≠ f) (ht : a ≠ t) : transferBal b f t amt a = b a := by
  simp [transferBal, Function.update_noteq hf, Function.update_noteq ht]

/-- Pointwise value of `transferBal` at the receiving endpoint. -/
theorem transferBal_to {α : Type} [DecidableEq α] (b : α → Nat) (f t : α)
    (amt : Nat) (h : f ≠ t) : transferBal b f t amt t = b t + amt := by
  simp [transferBal, Function.update_same, Function.update_noteq (Ne.symm h)]

/-- Pointwise value of `transferBal` at the sending endpoint. -/
theorem transferBal_from {α : Type} [DecidableEq α] (b : α → Nat) (f t : α)
    (amt : Nat) (h : f ≠ t) : transferBal b f t amt f = b f - amt := by
  simp [transferBal, Function.update_same, Function.update_noteq h]

/-- A transfer preserves the sum of all balances. -/
theorem sum_transferBal {α : Type} [DecidableEq α] [Fintype α] (b : α → Nat)
    (f t : α) (amt : Nat) (h : amt ≤ b f) :
    (∑ a, transferBal b f t amt a) = ∑ a, b a := by
  classical
  by_cases hft : f = t
  · subst hft
    have : transferBal b f f amt = b := by
      funext a
      by_cases ha : a = f
      · subst ha
        simp [transferBal, Function.update_same]
        omega
      · simp [transferBal, Function.update_noteq ha]
    rw [this]
  · have hbf : b f ≤ ∑ a, b a :=
      Finset.single_le_sum (fun i _ => Nat.zero_le (b i)) (Finset.mem_univ f)
    have h1 := sum_update_add b f (b f - amt)
    have h2 := sum_update_add (Function.update b f (b f - amt)) t
      (Function.update b f (b f - amt) t + amt)
    have h3 : Function.update b f (b f - amt) t = b t :=
      Function.update_noteq (Ne.symm hft) _ _
    have h4 : (Function.update b f (b f - amt)) f = b f - amt :=
      Function.update_same f _ b
    unfold transferBal
    omega

/-- A mint adds the minted amount to the sum of all balances. -/
theorem sum_mintBal {α : Type} [DecidableEq α] [Fintype α] (b : α → Nat)
    (t : α) (amt : Nat) :
    (∑ a, mintBal b t amt a) = (∑ a, b a) + amt := by
  have h := sum_update_add b t (b t + amt)
  unfold mintBal
  omega

/-- Updating one stake record updates the induced amount map pointwise. -/
theorem stakes_amount_update {α : Type} [DecidableEq α] (st : α → StakeInfo)
    (c : α) (v : StakeInfo) :
    (fun a => ((Function.update st c v) a).amount)
      = Function.update (fun a => (st a).amount) c v.amount := by
  funext a
  by_cases h : a = c
  · subst h; simp
  · simp [Function.update_noteq h]

/-- Updating one stake record shifts the total staked-amount sum by the
difference of the old and new amounts, in subtraction-free form. -/
theorem sum_stakes_update {α : Type} [DecidableEq α] [Fintype α]
    (st : α → StakeInfo) (c : α) (v : StakeInfo) :
    (∑ a, ((Function.update st c v) a).amount) + (st c).amount
      = (∑ a, (st a).amount) + v.amount := by
  have h2 : (∑ a, ((Function.update st c v) a).amount)
      = ∑ a, Function.update (fun b => (st b).amount) c v.amount a :=
    Finset.sum_congr rfl (fun a _ => by
      by_cases hac : a = c
      · subst hac; simp
      · simp [Function.update_noteq hac])
  rw [h2]
  exact sum_update_add _ _ _

/-- Bounding the staked-amount sum after one stake-record update. -/
theorem sum_stakes_update_le {α : Type} [DecidableEq α] [Fintype α]
    (st : α → StakeInfo) (c : α) (v : StakeInfo) (t : Nat)
    (h : (∑ a, (st a).amount) + v.amount ≤ t + (st c).amount) :
    (∑ a, ((Function.update st c v) a).amount) ≤ t := by
  have hup := sum_stakes_update st c v
  omega

/-- Everything `_claimStakingRewards` can do when it does not revert:
staking/node bookkeeping untouched, stake amounts untouched, and the
balances either fully unchanged or increased by one cap-respecting mint
to the settled owner. -/
theorem claim_spec {α : Type} [DecidableEq α] (s : State α) (u : α)
    (now : Nat) (s' : State α)
    (h : _claimStakingRewards s u now = some s') :
    s'.contractAddr = s.contractAddr ∧
    s'.ownerAddr = s.ownerAddr ∧
    s'.totalStaked = s.totalStaked ∧
    s'.nodes = s.nodes ∧
    s'.userNodes = s.userNodes ∧
    s'.paused = s.paused ∧
    (∀ a : α, (s'.stakes a).amount = (s.stakes a).amount) ∧
    (∀ a : α, a ≠ u → s'.balances a = s.balances a) ∧
    s.balances u ≤ s'.balances u ∧
    ((s'.totalSupply = s.totalSupply ∧ s'.balances = s.balances) ∨
      (∃ r : Nat, 0 < r ∧ s'.totalSupply = s.totalSupply + r ∧
        s'.totalSupply ≤ MAX_SUPPLY ∧ s'.balances = mintBal s.balances u r)) := by
  unfold _claimStakingRewards at h
  dsimp only at h
  split_ifs at h with h1 h2 h3
  · cases h
    exact ⟨rfl, rfl, rfl, rfl, rfl, rfl, fun a => rfl, fun a _ => rfl,
      Nat.le_refl _, Or.inl ⟨rfl, rfl⟩⟩
  · cases h
    refine ⟨rfl, rfl, rfl, rfl, rfl, rfl, ?_, fun a ha => ?_, ?_, ?_⟩
    · intro a
      by_cases ha : a = u
      · subst ha; simp [Function.update_same]
      · simp [Function.update_noteq ha]
    · simp [mintBal, Function.update_noteq ha]
    · simp [mintBal, Function.update_same]
    · exact Or.inr ⟨_, h3.1, rfl, h3.2, rfl⟩
  · cases h
    exact ⟨rfl, rfl, rfl, rfl, rfl, rfl, fun a => rfl, fun a _ => rfl,
      Nat.le_refl _, Or.inl ⟨rfl, rfl⟩⟩

/-- Inductive invariant of the token: supply capped, balances sum to the
supply, the contract's balance covers the staking escrow, the stake map
sums to at most the escrow counter, and no node record is owned by the
contract itself. -/
def Inv {α : Type} [DecidableEq α] [Fintype α] (s : State α) : Prop :=
  s.totalSupply ≤ MAX_SUPPLY ∧
  (∑ a, s.balances a) = s.totalSupply ∧
  s.totalStaked ≤ s.balances s.contractAddr ∧
  (∑ a, (s.stakes a).amount) ≤ s.totalStaked ∧
  (∀ nodeId node, s.nodes nodeId = some node → node.owner ≠ s.contractAddr)

/-- A non-reverting `_claimStakingRewards` on an external account
preserves the token invariant. -/
theorem claim_inv {α : Type} [DecidableEq α] [Fintype α]
    (s s' : State α) (u : α) (now : Nat) (hu : u ≠ s.contractAddr)
    (hInv : Inv s) (h : _claimStakingRewards s u now = some s') : Inv s' := by
  obtain ⟨hca, _, hts, hnodes, _, _, hstk, hbal, _, hmint⟩ := claim_spec s u now s' h
  obtain ⟨i1, i2, i3, i4, i5⟩ := hInv
  have hsum : (∑ a, (s'.stakes a).amount) = ∑ a, (s.stakes a).amount :=
    Finset.sum_congr rfl (fun a _ => hstk a)
  have hbc : s'.balances s'.contractAddr = s.balances s.contractAddr := by
    rw [hca]; exact hbal _ (fun hc => hu hc.symm)
  rcases hmint with ⟨hsup, hb⟩ | ⟨r, _, hsup, hcap, hb⟩
  · exact ⟨hsup ▸ i1, by rw [hb, hsup]; exact i2, by rw [hbc, hts]; exact i3,
      by rw [hsum, hts]; exact i4, by rw [hnodes, hca]; exact i5⟩
  · refine ⟨hcap, ?_, by rw [hbc, hts]; exact i3,
      by rw [hsum, hts]; exact i4, by rw [hnodes, hca]; exact i5⟩
    rw [hb, sum_mintBal, i2, hsup]

/-- `stake` preserves the token invariant. -/
theorem stake_inv {α : Type} [DecidableEq α] [Fintype α]
    (s s' : State α) (c : α) (amount now : Nat) (hc : c ≠ s.contractAddr)
    (hInv : Inv s) (h : stake s c amount now = some s') : Inv s' := by
  have key : ∀ (s1 : State α) (rec : StakeInfo), Inv s1 → c ≠ s1.contractAddr →
      ¬ s1.balances c < amount →
      rec.amount = (s1.stakes c).amount + amount →
      Inv { s1 with
        balances := transferBal s1.balances c s1.contractAddr amount
        stakes := Function.update s1.stakes c rec
        totalStaked := s1.totalStaked + amount } := by
    intro s1 rec hInv1 hc1 h4 hrec
    obtain ⟨i1, i2, i3, i4, i5⟩ := hInv1
    dsimp only [Inv]
    refine ⟨i1, ?_, ?_, ?_, i5⟩
    · rw [sum_transferBal s1.balances c s1.contractAddr amount (by omega)]
      exact i2
    · rw [transferBal_to s1.balances c s1.contractAddr amount hc1]
      omega
    · apply sum_stakes_update_le
      have hsc : (s1.stakes c).amount ≤ ∑ a, (s1.stakes a).amount :=
        Finset.single_le_sum (f := fun a => (s1.stakes a).amount)
          (fun i _ => Nat.zero_le _) (Finset.mem_univ c)
      omega
  unfold stake at h
  split_ifs at h with h1 h2 h3 hact
  · rcases hs1 : _claimStakingRewards s c now with _ | s1
    · rw [hs1] at h; cases h
    · rw [hs1] at h
      have hca1 : s1.contractAddr = s.contractAddr := (claim_spec s c now s1 hs1).1
      dsimp only at h
      split_ifs at h with h4
      cases h
      refine key s1 _ (claim_inv s s1 c now hc hInv hs1) (hca1 ▸ hc) h4 ?_
      rfl
  · dsimp only at h
    rw [if_neg h3] at h
    cases h
    refine key s _ hInv hc h3 ?_
    rfl

/-- `unstake` preserves the token invariant. -/
theorem unstake_inv {α : Type} [DecidableEq α] [Fintype α]
    (s s' : State α) (c : α) (amount now : Nat) (hc : c ≠ s.contractAddr)
    (hInv : Inv s) (h : unstake s c amount now = some s') : Inv s' := by
  unfold unstake at h
  split_ifs at h with h1 h2
  rcases hs1 : _claimStakingRewards s c now with _ | s1
  · rw [hs1] at h; cases h
  rw [hs1] at h
  obtain ⟨hca1, _, _, _, _, _, hstk, _, _, _⟩ := claim_spec s c now s1 hs1
  have hInv1 : Inv s1 := claim_inv s s1 c now hc hInv hs1
  have hc1 : c ≠ s1.contractAddr := hca1 ▸ hc
  have hge : amount ≤ (s1.stakes c).amount := by
    rw [hstk c]; omega
  have key : ∀ rec : StakeInfo, rec.amount = (s1.stakes c).amount - amount →
      ¬ s1.totalStaked < amount → ¬ s1.balances s1.contractAddr < amount →
      Inv { s1 with
        stakes := Function.update s1.stakes c rec
        totalStaked := s1.totalStaked - amount
        balances := transferBal s1.balances s1.contractAddr c amount } := by
    intro rec hrec h3 h4
    obtain ⟨i1, i2, i3, i4, i5⟩ := hInv1
    dsimp only [Inv]
    refine ⟨i1, ?_, ?_, ?_, i5⟩
    · rw [sum_transferBal s1.balances s1.contractAddr c amount (by omega)]
      exact i2
    · rw [transferBal_from s1.balances s1.contractAddr c amount
        (fun hcc => hc1 hcc.symm)]
      omega
    · apply sum_stakes_update_le
      have hsc : (s1.stakes c).amount ≤ ∑ a, (s1.stakes a).amount :=
        Finset.single_le_sum (f := fun a => (s1.stakes a).amount)
          (fun i _ => Nat.zero_le _) (Finset.mem_univ c)
      omega
  dsimp only at h
  split_ifs at h with h3 h4 h5
  all_goals cases h
  all_goals refine key _ ?_ (by assumption) (by assumption)
  all_goals rfl

/-- `deployNode` preserves the token invariant. -/
theorem deployNode_inv {α : Type} [DecidableEq α] [Fintype α]
    (s s' : State α) (c : α) (stakeAmount : Nat) (region : String)
    (now nodeId : Nat) (hc : c ≠ s.contractAddr)
    (hInv : Inv s)
    (h : deployNode s c stakeAmount region now nodeId = some s') : Inv s' := by
  unfold deployNode at h
  split_ifs at h with h1 h2 h3
  cases h
  obtain ⟨i1, i2, i3, i4, i5⟩ := hInv
  dsimp only [Inv]
  refine ⟨i1, ?_, ?_, by omega, ?_⟩
  · rw [sum_transferBal s.balances c s.contractAddr stakeAmount (by omega)]
    exact i2
  · rw [transferBal_to s.balances c s.contractAddr stakeAmount hc]
    omega
  · intro nid node hnode
    by_cases hn : nid = nodeId
    · subst hn
      rw [Function.update_same] at hnode
      cases hnode
      exact hc
    · rw [Function.update_noteq hn] at hnode
      exact i5 nid node hnode

/-- `reportThreat` preserves the token invariant. -/
theorem reportThreat_inv {α : Type} [DecidableEq α] [Fintype α]
    (s s' : State α) (c : α) (nodeId threatCount confidence : Nat)
    (hInv : Inv s)
    (h : reportThreat s c nodeId threatCount confidence = some s') : Inv s' := by
  obtain ⟨i1, i2, i3, i4, i5⟩ := hInv
  unfold reportThreat at h
  split_ifs at h with h1
  · rcases hn : s.nodes nodeId with _ | node
    · rw [hn] at h; cases h
    · rw [hn] at h
      have howner : node.owner ≠ s.contractAddr := i5 nodeId node hn
      have hnodes : ∀ nid nd,
          (Function.update s.nodes nodeId
            (some { node with
              threatsDetected := node.threatsDetected + threatCount })) nid
            = some nd → nd.owner ≠ s.contractAddr := by
        intro nid nd hnd
        by_cases hq : nid = nodeId
        · subst hq
          rw [Function.update_same] at hnd
          cases hnd
          exact howner
        · rw [Function.update_noteq hq] at hnd
          exact i5 nid nd hnd
      dsimp only at h
      split_ifs at h with h2 h3
      · cases h
        dsimp only [Inv]
        refine ⟨h3, ?_, ?_, i4, hnodes⟩
        · rw [sum_mintBal]
          omega
        · rw [mintBal, Function.update_noteq (fun hq => howner hq.symm)]
          exact i3
      · cases h
        exact ⟨i1, i2, i3, i4, hnodes⟩

/-- The constructor state satisfies the token invariant. -/
theorem init_inv {α : Type} [DecidableEq α] [Fintype α]
    (deployer contractA : α) : Inv (initState deployer contractA) := by
  have h := sum_update_add (α := α) (fun _ => 0) deployer INITIAL_SUPPLY
  simp only [Finset.sum_const_zero] at h
  unfold Inv initState
  refine ⟨by norm_num [INITIAL_SUPPLY, MAX_SUPPLY], by dsimp only; omega,
    Nat.zero_le _, by simp [StakeInfo.zero], fun _ _ hn => by cases hn⟩

/-- Every reachable token state satisfies the invariant. -/
theorem reach_inv {α : Type} [DecidableEq α] [Fintype α]
    (deployer contractA : α) (s : State α)
    (h : Reach (initState deployer contractA) s) : Inv s := by
  induction h with
  | refl => exact init_inv deployer contractA
  | step hr hs ih =>
    cases hs with
    | stake c amount now hc hop => exact stake_inv _ _ c amount now hc ih hop
    | unstake c amount now hc hop => exact unstake_inv _ _ c amount now hc ih hop
    | claimRewards c now hc hop => exact claim_inv _ _ c now hc ih hop
    | deployNode c stakeAmount region now nodeId hc hop =>
      exact deployNode_inv _ _ c stakeAmount region now nodeId hc ih hop
    | reportThreat c nodeId threatCount confidence hc hop =>
      exact reportThreat_inv _ _ c nodeId threatCount confidence ih hop

/-- Reward formula of the spec, stated on its own: stake amount times the
12.50% APY in basis points, scaled linearly by elapsed seconds over one
365-day year (integer division at each step, as in the code). -/
def stakingRewardFormula (stakeAmount elapsed : Nat) : Nat :=
  stakeAmount * STAKING_APY / 10000 * elapsed / SECONDS_PER_YEAR

/-- Concrete token state at the supply cap, for witnessing the cap-skip
behavior: one active stake and one active node, total supply already at
MAX_SUPPLY. -/
def capState : State (Fin 2) :=
  { contractAddr := 1
    ownerAddr := 0
    balances := fun a => if a = 1 then 2000 * 10 ^ 18 else MAX_SUPPLY - 2000 * 10 ^ 18
    totalSupply := MAX_SUPPLY
    stakes := fun a => if a = 0 then ⟨2000 * 10 ^ 18, 0, 0, 0, true⟩ else StakeInfo.zero
    nodes := fun nid => if nid = 0 then some ⟨0, 2000 * 10 ^ 18, 0, 10000, 0, true, "eu"⟩ else none
    userNodes := fun _ => []
    totalStaked := 2000 * 10 ^ 18
    totalNodes := 1
    totalThreatsDetected := 0
    rewardPool := 0
    paused := false }

/-- Result state of reporting one threat on `capState` (reward mint must
be skipped because the supply is already at the cap). -/
def capReport : State (Fin 2) :=
  (reportThreat capState 0 0 1 10000).getD capState

/-- Claim C1: along every reachable state of the token under the five
operations (stake, unstake, claimRewards, deployNode, reportThreat), the
sum of all staked amounts is at most the total supply, which never
exceeds MAX_SUPPLY; and a reward issuance whose mint would push the total
supply above the cap is skipped entirely, with no partial mint and no
error: the staking settlement leaves the state untouched and succeeds,
and reportThreat succeeds with supply and balances unchanged. -/
theorem c1_supply_invariant :
    (∀ (α : Type) [DecidableEq α] [Fintype α] (deployer contractA : α)
       (s : State α), Reach (initState deployer contractA) s →
       (∑ a, (s.stakes a).amount) ≤ s.totalSupply ∧
       s.totalSupply ≤ MAX_SUPPLY) ∧
    (∀ (α : Type) [DecidableEq α] (s : State α) (u : α) (now : Nat),
       (s.stakes u).timestamp ≤ now →
       MAX_SUPPLY < s.totalSupply + stakingRewardOf s u now →
       _claimStakingRewards s u now = some s) ∧
    (∀ (α : Type) [DecidableEq α] (s s' : State α) (c : α)
       (nodeId threatCount confidence : Nat) (node : NodeInfo α),
       s.nodes nodeId = some node →
       MAX_SUPPLY < s.totalSupply + threatRewardOf node threatCount confidence →
       reportThreat s c nodeId threatCount confidence = some s' →
       s'.totalSupply = s.totalSupply ∧ s'.balances = s.balances) := by
  refine ⟨?_, ?_, ?_⟩
  · intro α _ _ deployer contractA s hreach
    obtain ⟨i1, i2, i3, i4, i5⟩ := reach_inv deployer contractA s hreach
    have hbc : s.balances s.contractAddr ≤ ∑ a, s.balances a :=
      Finset.single_le_sum (fun i _ => Nat.zero_le _)
        (Finset.mem_univ s.contractAddr)
    omega
  · intro α _ s u now hts hcap
    unfold stakingRewardOf at hcap
    unfold _claimStakingRewards
    dsimp only
    split_ifs with h1 h2 h3
    · rfl
    · omega
    · exfalso; omega
    · rfl
  · intro α _ s s' c nodeId threatCount confidence node hn hcap h
    unfold reportThreat at h
    split_ifs at h with h1
    rw [hn] at h
    dsimp only at h
    split_ifs at h with h2 h3
    · exfalso; omega
    · cases h
      exact ⟨rfl, rfl⟩

/-- Witness for C1 at concrete inputs: the invariant holds in the just
deployed state over two addresses, a staking settlement at the cap is a
successful no-op, and a threat report at the cap succeeds without
changing supply or balances. -/
theorem c1_supply_invariant_witness :
    ((∑ a, ((initState (0 : Fin 2) 1).stakes a).amount)
        ≤ (initState (0 : Fin 2) 1).totalSupply ∧
      (initState (0 : Fin 2) 1).totalSupply ≤ MAX_SUPPLY) ∧
    _claimStakingRewards capState 0 SECONDS_PER_YEAR = some capState ∧
    (capReport.totalSupply = capState.totalSupply ∧
      capReport.balances = capState.balances) :=
  ⟨c1_supply_invariant.1 (Fin 2) 0 1 (initState 0 1) Reach.refl,
   c1_supply_invariant.2.1 (Fin 2) capState 0 SECONDS_PER_YEAR
     (by decide) (by decide),
   c1_supply_invariant.2.2 (Fin 2) capState capReport 0 0 1 10000
     ⟨0, 2000 * 10 ^ 18, 0, 10000, 0, true, "eu"⟩ rfl (by decide) rfl⟩

/-- Concrete token state with an active 1500-token stake whose owner is
address 0 and whose escrow sits at the contract address 1. -/
def unstakeState : State (Fin 2) :=
  { contractAddr := 1
    ownerAddr := 0
    balances := fun a => if a = 1 then 1500 * 10 ^ 18 else 0
    totalSupply := INITIAL_SUPPLY
    stakes := fun a => if a = 0 then ⟨1500 * 10 ^ 18, 100, 0, 0, true⟩ else StakeInfo.zero
    nodes := fun _ => none
    userNodes := fun _ => []
    totalStaked := 1500 * 10 ^ 18
    totalNodes := 0
    totalThreatsDetected := 0
    rewardPool := 0
    paused := false }

/-- Result of unstaking 500 tokens from `unstakeState` at the stake's
own timestamp (so the settled reward is zero). -/
def unstakeRes : State (Fin 2) :=
  (unstake unstakeState 0 (500 * 10 ^ 18) 100).getD unstakeState

/-- Claim C4: unstake requires an active stake of at least the requested
amount (otherwise it reverts); on success it settles the pending staking
reward first, decrements the stake by the amount, records a release time
of now plus the 7-day cooldown, and credits the amount back to the
caller's spendable balance within the same call - the recorded cooldown
does not block or delay the return transfer. -/
theorem c4_unstake_behavior :
    (∀ (α : Type) [DecidableEq α] (s : State α) (c : α) (amount now : Nat),
       (s.stakes c).isActive = false → unstake s c amount now = none) ∧
    (∀ (α : Type) [DecidableEq α] (s : State α) (c : α) (amount now : Nat),
       (s.stakes c).amount < amount → unstake s c amount now = none) ∧
    (∀ (α : Type) [DecidableEq α] (s s' : State α) (c : α) (amount now : Nat),
       c ≠ s.contractAddr → unstake s c amount now = some s' →
       (s.stakes c).isActive = true ∧
       amount ≤ (s.stakes c).amount ∧
       ∃ s1 : State α, _claimStakingRewards s c now = some s1 ∧
         s'.balances c = s1.balances c + amount ∧
         (s'.stakes c).amount = (s.stakes c).amount - amount ∧
         (s'.stakes c).unstakeTime = now + UNSTAKE_COOLDOWN ∧
         (s'.stakes c).rewards = (s1.stakes c).rewards) := by
  refine ⟨?_, ?_, ?_⟩
  · intro α _ s c amount now hin
    unfold unstake
    rw [if_pos hin]
  · intro α _ s c amount now hlt
    unfold unstake
    split_ifs with h1
    · rfl
    · rfl
  · intro α _ s s' c amount now hc h
    unfold unstake at h
    split_ifs at h with h1 h2
    rcases hs1 : _claimStakingRewards s c now with _ | s1
    · rw [hs1] at h; cases h
    rw [hs1] at h
    obtain ⟨hca1, _, _, _, _, _, hstk, _, _, _⟩ := claim_spec s c now s1 hs1
    have hact : (s.stakes c).isActive = true := by
      revert h1; cases (s.stakes c).isActive <;> simp
    have hcc : s1.contractAddr ≠ c := fun hq => hc (hq ▸ hca1 ▸ rfl)
    refine ⟨hact, by omega, s1, rfl, ?_⟩
    dsimp only at h
    split_ifs at h with h3 h4 h5
    all_goals cases h
    all_goals refine ⟨?_, ?_, ?_, ?_⟩
    all_goals
      simp [transferBal_to s1.balances s1.contractAddr c amount hcc,
        Function.update_same, hstk c]

/-- Witness for C4 at concrete inputs: unstaking with no active stake
reverts, and a successful 500-token unstake at the stake timestamp
settles a zero reward, decrements the stake, records the cooldown and
returns the tokens at once. -/
theorem c4_unstake_behavior_witness :
    unstake unstakeState 1 (500 * 10 ^ 18) 100 = none ∧
    ((unstakeState.stakes 0).isActive = true ∧
     500 * 10 ^ 18 ≤ (unstakeState.stakes 0).amount ∧
     ∃ s1 : State (Fin 2),
       _claimStakingRewards unstakeState 0 100 = some s1 ∧
       unstakeRes.balances 0 = s1.balances 0 + 500 * 10 ^ 18 ∧
       (unstakeRes.stakes 0).amount
         = (unstakeState.stakes 0).amount - 500 * 10 ^ 18 ∧
       (unstakeRes.stakes 0).unstakeTime = 100 + UNSTAKE_COOLDOWN ∧
       (unstakeRes.stakes 0).rewards = (s1.stakes 0).rewards) :=
  ⟨c4_unstake_behavior.1 (Fin 2) unstakeState 1 (500 * 10 ^ 18) 100 (by decide),
   c4_unstake_behavior.2.2 (Fin 2) unstakeState unstakeRes 0 (500 * 10 ^ 18) 100
     (by decide) rfl⟩

/-- Result of settling the staking reward on `unstakeState`'s owner one
full year after the stake timestamp. -/
def c5Res : State (Fin 2) :=
  (_claimStakingRewards unstakeState 0 (100 + SECONDS_PER_YEAR)).getD unstakeState

/-- Claim C5: the settled staking reward equals
stakeAmount * 1250 / 10000 * elapsed / (365 days) - a fixed 12.5% APY
linear in the elapsed time since the stake timestamp (with the integer
divisions of the code); and claiming at the stake timestamp itself (zero
elapsed time) settles exactly 0 and changes nothing, balances included. -/
theorem c5_reward_formula :
    (∀ (α : Type) [DecidableEq α] (s s' : State α) (u : α) (now : Nat),
       (s.stakes u).isActive = true →
       (s.stakes u).timestamp ≤ now →
       0 < stakingRewardFormula (s.stakes u).amount (now - (s.stakes u).timestamp) →
       s.totalSupply + stakingRewardFormula (s.stakes u).amount
         (now - (s.stakes u).timestamp) ≤ MAX_SUPPLY →
       _claimStakingRewards s u now = some s' →
       s'.balances u = s.balances u +
         stakingRewardFormula (s.stakes u).amount (now - (s.stakes u).timestamp) ∧
       s'.totalSupply = s.totalSupply +
         stakingRewardFormula (s.stakes u).amount (now - (s.stakes u).timestamp) ∧
       (s'.stakes u).rewards = (s.stakes u).rewards +
         stakingRewardFormula (s.stakes u).amount (now - (s.stakes u).timestamp)) ∧
    (∀ (α : Type) [DecidableEq α] (s : State α) (u : α),
       claimRewards s u ((s.stakes u).timestamp) = some s) := by
  constructor
  · intro α _ s s' u now hact hts hpos hcap h
    have hamt : (s.stakes u).amount ≠ 0 := by
      intro hz
      rw [stakingRewardFormula, hz] at hpos
      simp at hpos
    unfold _claimStakingRewards at h
    dsimp only at h
    rw [if_neg (by simp [hact, hamt]), if_neg (by omega)] at h
    rw [if_pos ?side] at h
    case side => exact ⟨hpos, hcap⟩
    cases h
    refine ⟨?_, rfl, ?_⟩
    · simp [mintBal, Function.update_same]
      rfl
    · simp [Function.update_same]
      rfl
  · intro α _ s u
    unfold claimRewards _claimStakingRewards
    dsimp only
    split_ifs with h1 h2 h3
    · rfl
    · omega
    · exfalso
      rw [Nat.sub_self] at h3
      simp at h3
    · rfl

/-- Witness for C5 at concrete inputs: a 1500-token stake held one year
settles exactly 1500 * 1250 / 10000 = 187.5 tokens by the formula, and a
claim at the stake timestamp is a no-op. -/
theorem c5_reward_formula_witness :
    (c5Res.balances 0 = unstakeState.balances 0 +
       stakingRewardFormula (unstakeState.stakes 0).amount
         ((100 + SECONDS_PER_YEAR) - (unstakeState.stakes 0).timestamp) ∧
     c5Res.totalSupply = unstakeState.totalSupply +
       stakingRewardFormula (unstakeState.stakes 0).amount
         ((100 + SECONDS_PER_YEAR) - (unstakeState.stakes 0).timestamp) ∧
     (c5Res.stakes 0).rewards = (unstakeState.stakes 0).rewards +
       stakingRewardFormula (unstakeState.stakes 0).amount
         ((100 + SECONDS_PER_YEAR) - (unstakeState.stakes 0).timestamp)) ∧
    claimRewards unstakeState 0 ((unstakeState.stakes 0).timestamp)
      = some unstakeState :=
  ⟨c5_reward_formula.1 (Fin 2) unstakeState c5Res 0 (100 + SECONDS_PER_YEAR)
     (by decide) (by decide) (by decide) (by decide) rfl,
   c5_reward_formula.2 (Fin 2) unstakeState 0⟩

end Token

namespace Registry

/-- DeviceType enum of DePINNodeRegistry (default: first variant). -/
inductive DeviceType
| Mobile
| Desktop
| IoT
| Server
| EdgeDevice
deriving DecidableEq, Repr

/-- NodeStatus enum of DePINNodeRegistry (default: Inactive). -/
inductive NodeStatus
| Inactive
| Active
| Maintenance
| Slashed
deriving DecidableEq, Repr

/-- NodeCapability enum of DePINNodeRegistry. -/
inductive NodeCapability
| ThreatDetection
| DataStorage
| Compute
| Networking
| EnergyMonitoring
deriving DecidableEq, Repr

/-- HardwareSpecs struct. -/
structure HardwareSpecs where
  cpuCores : Nat
  ramGb : Nat
  storageGb : Nat
  networkBandwidthMbps : Nat
  powerConsumptionWatts : Nat
deriving DecidableEq, Repr

/-- DePINNode struct.  Addresses are `Nat`, with 0 standing for
`address(0)`: an all-zero mapping slot has `owner = 0`. -/
structure DePINNode where
  owner : Nat
  nodeId : String
  deviceType : DeviceType
  capabilities : List NodeCapability
  location : String
  stakeAmount : Nat
  reputationScore : Nat
  energyEfficiency : Nat
  hardwareSpecs : HardwareSpecs
  status : NodeStatus
  registrationTime : Nat
  lastActiveTime : Nat
  totalRewards : Nat
  threatsDetected : Nat
  uptime : Nat
  isVerified : Bool
deriving DecidableEq, Repr

/-- All-zero mapping slot of the `nodes` mapping. -/
def DePINNode.empty : DePINNode :=
  ⟨0, "", DeviceType.Mobile, [], "", 0, 0, 0, ⟨0, 0, 0, 0, 0⟩,
   NodeStatus.Inactive, 0, 0, 0, 0, 0, false⟩

/-- NodeMetrics struct (network-wide aggregates). -/
structure NodeMetrics where
  totalNodes : Nat
  activeNodes : Nat
  totalStaked : Nat
  totalRewards : Nat
  avgReputationScore : Nat
  totalThreatsDetected : Nat
  networkUptime : Nat
deriving DecidableEq, Repr

/-- Storage of the DePINNodeRegistry contract (the gamification
challenges are untouched by the operations modelled here). -/
structure State where
  owner : Nat
  nodes : String → DePINNode
  ownerNodes : Nat → List String
  deviceTypeCounts : DeviceType → Nat
  nodeRewards : Nat → Nat
  allNodeIds : List String
  networkMetrics : NodeMetrics
  playerLevels : Nat → Nat
  experiencePoints : Nat → Nat
  paused : Bool

/-- MIN_STAKE: 1000 tokens. -/
def MIN_STAKE : Nat := 1000 * 10 ^ 18

/-- MAX_NODES_PER_OWNER. -/
def MAX_NODES_PER_OWNER : Nat := 10

/-- REPUTATION_DECAY_RATE in basis points per day. -/
def REPUTATION_DECAY_RATE : Nat := 100

/-- ENERGY_EFFICIENCY_THRESHOLD (80%). -/
def ENERGY_EFFICIENCY_THRESHOLD : Nat := 8000

/-- BASE_REWARD_RATE in basis points. -/
def BASE_REWARD_RATE : Nat := 100

/-- REPUTATION_MULTIPLIER in basis points. -/
def REPUTATION_MULTIPLIER : Nat := 50

/-- ENERGY_BONUS_RATE in basis points. -/
def ENERGY_BONUS_RATE : Nat := 25

/-- UPTIME_BONUS_RATE in basis points. -/
def UPTIME_BONUS_RATE : Nat := 30

/-- DePINNodeRegistry.registerNode.  The stake escrow is an external
ERC20 `transferFrom`; its success is supplied by the environment as
`transferOk` (the call reverts when the transfer fails, and all require
checks run before it). -/
def registerNode (s : State) (caller : Nat) (nodeId : String)
    (deviceType : DeviceType) (capabilities : List NodeCapability)
    (location : String) (stakeAmount : Nat) (hardwareSpecs : HardwareSpecs)
    (now : Nat) (transferOk : Bool) : Option State :=
  if s.paused = true then none
  else if nodeId.length = 0 then none
  else if stakeAmount < MIN_STAKE then none
  else if MAX_NODES_PER_OWNER ≤ (s.ownerNodes caller).length then none
  else if (s.nodes nodeId).owner ≠ 0 then none
  else if transferOk = false then none
  else
    let old := s.nodes nodeId
    let node : DePINNode :=
      { owner := caller
        nodeId := nodeId
        deviceType := deviceType
        capabilities := capabilities
        location := location
        stakeAmount := stakeAmount
        reputationScore := 5000
        energyEfficiency := 7000
        hardwareSpecs := hardwareSpecs
        status := NodeStatus.Active
        registrationTime := now
        lastActiveTime := now
        totalRewards := old.totalRewards
        threatsDetected := old.threatsDetected
        uptime := old.uptime
        isVerified := false }
    let ownerNodes1 := Function.update s.ownerNodes caller
      (s.ownerNodes caller ++ [nodeId])
    let s1 := { s with
      nodes := Function.update s.nodes nodeId node
      ownerNodes := ownerNodes1
      allNodeIds := s.allNodeIds ++ [nodeId]
      deviceTypeCounts := Function.update s.deviceTypeCounts deviceType
        (s.deviceTypeCounts deviceType + 1)
      networkMetrics := { s.networkMetrics with
        totalNodes := s.networkMetrics.totalNodes + 1
        activeNodes := s.networkMetrics.activeNodes + 1
        totalStaked := s.networkMetrics.totalStaked + stakeAmount } }
    if (ownerNodes1 caller).length = 1 then
      some { s1 with
        playerLevels := Function.update s1.playerLevels caller 1
        experiencePoints := Function.update s1.experiencePoints caller 0 }
    else some s1

/-- DePINNodeRegistry._updateReputation.  Called after the caller has
already refreshed the node's metrics and `lastActiveTime`; the decay
window is measured against the node's stored `lastActiveTime` at the
time of this call. -/
def _updateReputation (s : State) (nodeId : String)
    (newThreats uptime energyEfficiency now : Nat) : State :=
  let node := s.nodes nodeId
  let r0 := node.reputationScore
  let r1 := if 0 < newThreats then r0 + newThreats * 10 else r0
  let r2 := if 86400 < uptime then r1 + 50 else r1
  let r3 := if ENERGY_EFFICIENCY_THRESHOLD < energyEfficiency then r2 + 25 else r2
  let daysSinceLastUpdate := (now - node.lastActiveTime) / 86400
  let r4 :=
    if 0 < daysSinceLastUpdate then
      let decay := r3 * REPUTATION_DECAY_RATE * daysSinceLastUpdate / 10000
      if decay < r3 then r3 - decay else 0
    else r3
  let r5 := if 10000 < r4 then 10000 else r4
  { s with
    nodes := Function.update s.nodes nodeId { node with reputationScore := r5 } }

/-- DePINNodeRegistry._calculateRewards (a view). -/
def _calculateRewards (s : State) (nodeId : String)
    (newThreats uptime energyEfficiency : Nat) : Nat :=
  let node := s.nodes nodeId
  let baseReward := node.stakeAmount * BASE_REWARD_RATE / 10000
  let reputationMultiplier := node.reputationScore * REPUTATION_MULTIPLIER / 10000
  let energyBonus := if ENERGY_EFFICIENCY_THRESHOLD < energyEfficiency then
      baseReward * ENERGY_BONUS_RATE / 10000 else 0
  let uptimeBonus := if 86400 < uptime then
      baseReward * UPTIME_BONUS_RATE / 10000 else 0
  let threatBonus := newThreats * 100 * 10 ^ 18
  baseReward + reputationMultiplier + energyBonus + uptimeBonus + threatBonus

/-- DePINNodeRegistry._checkLevelUp. -/
def _checkLevelUp (s : State) (player : Nat) : State :=
  let currentLevel := s.playerLevels player
  let xp := s.experiencePoints player
  let requiredXP := currentLevel * 1000
  if requiredXP ≤ xp then
    { s with
      playerLevels := Function.update s.playerLevels player (currentLevel + 1)
      nodeRewards := Function.update s.nodeRewards player
        (s.nodeRewards player + currentLevel * 100 * 10 ^ 18) }
  else s

/-- DePINNodeRegistry._updateNetworkMetrics: one pass over all node ids,
averaging reputation and uptime over the active nodes. -/
def _updateNetworkMetrics (s : State) : State :=
  let acc := s.allNodeIds.foldl
    (fun (acc : Nat × Nat × Nat) nid =>
      let node := s.nodes nid
      if node.status = NodeStatus.Active then
        (acc.1 + node.reputationScore, acc.2.1 + node.uptime, acc.2.2 + 1)
      else acc)
    (0, 0, 0)
  let m1 := if 0 < acc.2.2 then
      { s.networkMetrics with
        avgReputationScore := acc.1 / acc.2.2
        networkUptime := acc.2.1 / acc.2.2 }
    else s.networkMetrics
  { s with networkMetrics := { m1 with activeNodes := acc.2.2 } }

/-- DePINNodeRegistry.updateNodeMetrics.  The ECDSA recovery of the
attestation is abstracted by `signer`: the address the signature
recovers to over the submitted tuple; the call requires it to equal the
node's owner.  The cumulative threat counter must not decrease (the
checked subtraction would revert). -/
def updateNodeMetrics (s : State) (nodeId : String)
    (threatsDetected uptime energyEfficiency : Nat) (signer : Nat)
    (now : Nat) : Option State :=
  let node := s.nodes nodeId
  if node.owner = 0 then none
  else if node.status ≠ NodeStatus.Active then none
  else if signer ≠ node.owner then none
  else if threatsDetected < node.threatsDetected then none
  else
    let newThreats := threatsDetected - node.threatsDetected
    let node1 := { node with
      threatsDetected := threatsDetected
      uptime := node.uptime + uptime
      energyEfficiency := energyEfficiency
      lastActiveTime := now }
    let s1 := { s with nodes := Function.update s.nodes nodeId node1 }
    let s2 := _updateReputation s1 nodeId newThreats uptime energyEfficiency now
    let reward := _calculateRewards s2 nodeId newThreats uptime energyEfficiency
    let s3 :=
      if 0 < reward then
        let s3a := { s2 with
          nodeRewards := Function.update s2.nodeRewards node.owner
            (s2.nodeRewards node.owner + reward)
          nodes := Function.update s2.nodes nodeId
            { s2.nodes nodeId with
              totalRewards := (s2.nodes nodeId).totalRewards + reward }
          networkMetrics := { s2.networkMetrics with
            totalRewards := s2.networkMetrics.totalRewards + reward }
          experiencePoints := Function.update s2.experiencePoints node.owner
            (s2.experiencePoints node.owner + reward / 10 ^ 18) }
        _checkLevelUp s3a node.owner
      else s2
    let s4 := { s3 with networkMetrics := { s3.networkMetrics with
      totalThreatsDetected := s3.networkMetrics.totalThreatsDetected + newThreats } }
    some (_updateNetworkMetrics s4)

/-- DePINNodeRegistry.slashNode (onlyOwner).  The two checked
subtractions on `activeNodes` and `totalStaked` revert on underflow. -/
def slashNode (s : State) (caller : Nat) (nodeId : String)
    (slashAmount : Nat) : Option State :=
  if caller ≠ s.owner then none
  else
    let node := s.nodes nodeId
    if node.owner = 0 then none
    else if node.stakeAmount < slashAmount then none
    else if s.networkMetrics.activeNodes = 0 then none
    else if s.networkMetrics.totalStaked < slashAmount then none
    else
      some { s with
        nodes := Function.update s.nodes nodeId
          { node with
            stakeAmount := node.stakeAmount - slashAmount
            status := NodeStatus.Slashed
            reputationScore := node.reputationScore / 2 }
        networkMetrics := { s.networkMetrics with
          activeNodes := s.networkMetrics.activeNodes - 1
          totalStaked := s.networkMetrics.totalStaked - slashAmount } }

/-- Constructor state of DePINNodeRegistry. -/
def initState (deployer : Nat) : State :=
  { owner := deployer
    nodes := fun _ => DePINNode.empty
    ownerNodes := fun _ => []
    deviceTypeCounts := fun _ => 0
    nodeRewards := fun _ => 0
    allNodeIds := []
    networkMetrics := ⟨0, 0, 0, 0, 0, 0, 0⟩
    playerLevels := fun _ => 0
    experiencePoints := fun _ => 0
    paused := false }

/-- One externally-invoked operation of the registry among the three the
reputation-range claim quantifies over.  `msg.sender` is never the zero
address. -/
inductive Step : State → State → Prop
| registerNode (s s' : State) (caller : Nat) (nodeId : String)
    (deviceType : DeviceType) (capabilities : List NodeCapability)
    (location : String) (stakeAmount : Nat) (hardwareSpecs : HardwareSpecs)
    (now : Nat) (transferOk : Bool) :
    caller ≠ 0 →
    registerNode s caller nodeId deviceType capabilities location
      stakeAmount hardwareSpecs now transferOk = some s' →
    Step s s'
| updateNodeMetrics (s s' : State) (nodeId : String)
    (threatsDetected uptime energyEfficiency signer now : Nat) :
    updateNodeMetrics s nodeId threatsDetected uptime energyEfficiency
      signer now = some s' →
    Step s s'
| slashNode (s s' : State) (caller : Nat) (nodeId : String)
    (slashAmount : Nat) :
    slashNode s caller nodeId slashAmount = some s' →
    Step s s'

/-- States reachable from `s0` by the three registry operations. -/
inductive Reach (s0 : State) : State → Prop
| refl : Reach s0 s0
| step {s s' : State} : Reach s0 s → Step s s' → Reach s0 s'

/-- Reputation bound of the registry: every node record (registered or
not) carries a score of at most 10000. -/
def RepInv (s : State) : Prop :=
  ∀ nid : String, (s.nodes nid).reputationScore ≤ 10000

/-- `_updateNetworkMetrics` does not touch the node table. -/
theorem nm_nodes (s : State) : (_updateNetworkMetrics s).nodes = s.nodes := rfl

/-- `_checkLevelUp` does not touch the node table. -/
theorem clu_nodes (s : State) (p : Nat) : (_checkLevelUp s p).nodes = s.nodes := by
  unfold _checkLevelUp
  dsimp only
  split_ifs <;> rfl

/-- `_updateReputation` leaves every other node record unchanged. -/
theorem ur_nodes_other (s : State) (nodeId : String)
    (newThreats uptime energyEfficiency now : Nat) (nid : String)
    (h : nid ≠ nodeId) :
    (_updateReputation s nodeId newThreats uptime energyEfficiency now).nodes nid
      = s.nodes nid := by
  unfold _updateReputation
  dsimp only
  exact Function.update_noteq h _ _

/-- The score `_updateReputation` writes is clamped to 10000. -/
theorem ur_rep_le (s : State) (nodeId : String)
    (newThreats uptime energyEfficiency now : Nat) :
    ((_updateReputation s nodeId newThreats uptime energyEfficiency now).nodes
      nodeId).reputationScore ≤ 10000 := by
  unfold _updateReputation
  dsimp only
  rw [Function.update_same]
  dsimp only
  split_ifs <;> omega

/-- What a non-reverting `updateNodeMetrics` does to the node table:
other records are untouched, and the submitted node's score is clamped
to at most 10000. -/
theorem updateNodeMetrics_nodes (s s' : State) (nodeId : String)
    (threatsDetected uptime energyEfficiency signer now : Nat)
    (h : updateNodeMetrics s nodeId threatsDetected uptime energyEfficiency
      signer now = some s') :
    (∀ nid : String, nid ≠ nodeId → s'.nodes nid = s.nodes nid) ∧
    (s'.nodes nodeId).reputationScore ≤ 10000 := by
  unfold updateNodeMetrics at h
  dsimp only at h
  split_ifs at h with h1 h2 h3 h4 h5
  all_goals cases h
  all_goals constructor
  all_goals
    first
    | (intro nid hnid
       rw [nm_nodes]
       dsimp only
       first
       | (rw [clu_nodes]
          dsimp only
          rw [Function.update_noteq hnid,
            ur_nodes_other _ _ _ _ _ _ _ hnid]
          dsimp only
          rw [Function.update_noteq hnid])
       | (rw [ur_nodes_other _ _ _ _ _ _ _ hnid]
          dsimp only
          rw [Function.update_noteq hnid]))
    | (rw [nm_nodes]
       dsimp only
       first
       | (rw [clu_nodes]
          dsimp only
          rw [Function.update_same]
          dsimp only
          exact ur_rep_le _ _ _ _ _ _)
       | exact ur_rep_le _ _ _ _ _ _)

/-- `registerNode` preserves the reputation bound. -/
theorem registerNode_rep (s s' : State) (caller : Nat) (nodeId : String)
    (deviceType : DeviceType) (capabilities : List NodeCapability)
    (location : String) (stakeAmount : Nat) (hardwareSpecs : HardwareSpecs)
    (now : Nat) (transferOk : Bool) (hInv : RepInv s)
    (h : registerNode s caller nodeId deviceType capabilities location
      stakeAmount hardwareSpecs now transferOk = some s') : RepInv s' := by
  unfold registerNode at h
  dsimp only at h
  split_ifs at h with h1 h2 h3 h4 h5 h6 h7
  all_goals cases h
  all_goals intro nid
  all_goals dsimp only
  all_goals by_cases hq : nid = nodeId
  all_goals first
    | (subst hq; rw [Function.update_same]; dsimp only; omega)
    | (rw [Function.update_noteq hq]; exact hInv nid)

/-- `updateNodeMetrics` preserves the reputation bound. -/
theorem updateNodeMetrics_rep (s s' : State) (nodeId : String)
    (threatsDetected uptime energyEfficiency signer now : Nat)
    (hInv : RepInv s)
    (h : updateNodeMetrics s nodeId threatsDetected uptime energyEfficiency
      signer now = some s') : RepInv s' := by
  obtain ⟨hother, hself⟩ := updateNodeMetrics_nodes s s' nodeId
    threatsDetected uptime energyEfficiency signer now h
  intro nid
  by_cases hq : nid = nodeId
  · subst hq; exact hself
  · rw [hother nid hq]; exact hInv nid

/-- `slashNode` preserves the reputation bound (halving the score). -/
theorem slashNode_rep (s s' : State) (caller : Nat) (nodeId : String)
    (slashAmount : Nat) (hInv : RepInv s)
    (h : slashNode s caller nodeId slashAmount = some s') : RepInv s' := by
  unfold slashNode at h
  dsimp only at h
  split_ifs at h with h1 h2 h3 h4 h5
  cases h
  intro nid
  dsimp only
  by_cases hq : nid = nodeId
  · subst hq
    rw [Function.update_same]
    have hb := hInv nid
    have hdiv : (s.nodes nid).reputationScore / 2
        ≤ (s.nodes nid).reputationScore := Nat.div_le_self _ _
    dsimp only
    omega
  · rw [Function.update_noteq hq]
    exact hInv nid

/-- Every reachable registry state satisfies the reputation bound. -/
theorem registry_reach_rep (deployer : Nat) (s : State)
    (h : Reach (initState deployer) s) : RepInv s := by
  induction h with
  | refl =>
    intro nid
    simp [initState, DePINNode.empty]
  | step hr hs ih =>
    cases hs with
    | registerNode c nodeId dt caps loc sa hw now tok hc hop =>
      exact registerNode_rep _ _ c nodeId dt caps loc sa hw now tok ih hop
    | updateNodeMetrics nodeId td ut ee sg now hop =>
      exact updateNodeMetrics_rep _ _ nodeId td ut ee sg now ih hop
    | slashNode c nodeId sa hop =>
      exact slashNode_rep _ _ c nodeId sa ih hop

/-- Claim C7: under every sequence of registerNode, updateNodeMetrics
and slashNode operations, every node's reputationScore stays within
[0, 10000]. -/
theorem c7_reputation_range :
    ∀ (deployer : Nat) (s : State) (nodeId : String),
      Reach (initState deployer) s →
      0 ≤ (s.nodes nodeId).reputationScore ∧
      (s.nodes nodeId).reputationScore ≤ 10000 :=
  fun deployer s nodeId h =>
    ⟨Nat.zero_le _, registry_reach_rep deployer s h nodeId⟩

/-- Registry state reached by registering node "n1" from a fresh
deployment. -/
def c7Reg : State :=
  (registerNode (initState 0) 7 "n1" DeviceType.Server [] "eu" MIN_STAKE
    ⟨8, 16, 512, 1000, 150⟩ 1000 true).getD (initState 0)

/-- Witness for C7: after one concrete registration the new node's
score (5000) lies in [0, 10000]. -/
theorem c7_reputation_range_witness :
    0 ≤ (c7Reg.nodes "n1").reputationScore ∧
    (c7Reg.nodes "n1").reputationScore ≤ 10000 :=
  c7_reputation_range 0 c7Reg "n1"
    (Reach.step Reach.refl
      (Step.registerNode _ _ 7 "n1" DeviceType.Server [] "eu" MIN_STAKE
        ⟨8, 16, 512, 1000, 150⟩ 1000 true (by decide) rfl))

/-- Claim C9: registering a node id that is already registered (its
stored owner is nonzero) always reverts, whatever the other arguments
and the token transfer outcome are - so no registry state is mutated
and the existing record survives unchanged. -/
theorem c9_duplicate_register_rejected :
    ∀ (s : State) (caller : Nat) (nodeId : String) (deviceType : DeviceType)
      (capabilities : List NodeCapability) (location : String)
      (stakeAmount : Nat) (hardwareSpecs : HardwareSpecs) (now : Nat)
      (transferOk : Bool),
      (s.nodes nodeId).owner ≠ 0 →
      registerNode s caller nodeId deviceType capabilities location
        stakeAmount hardwareSpecs now transferOk = none := by
  intro s caller nodeId dt caps loc sa hw now tok hdup
  unfold registerNode
  dsimp only
  split_ifs
  all_goals rfl

/-- Witness for C9: re-registering "n1" on the state that already holds
it reverts. -/
theorem c9_duplicate_register_rejected_witness :
    registerNode c7Reg 8 "n1" DeviceType.Mobile [] "us" MIN_STAKE
      ⟨1, 1, 1, 1, 1⟩ 2000 true = none :=
  c9_duplicate_register_rejected c7Reg 8 "n1" DeviceType.Mobile [] "us"
    MIN_STAKE ⟨1, 1, 1, 1, 1⟩ 2000 true (by decide)

/-- Registry state whose node "n1" (owner 7, Active, reputation 5000)
was last active at time 0: two whole days before the metrics update the
decay claim is tested against. -/
def c6State : State :=
  { owner := 0
    nodes := fun nid => if nid = "n1" then
        { owner := 7
          nodeId := "n1"
          deviceType := DeviceType.Server
          capabilities := []
          location := "eu"
          stakeAmount := 0
          reputationScore := 5000
          energyEfficiency := 7000
          hardwareSpecs := ⟨1, 1, 1, 1, 1⟩
          status := NodeStatus.Active
          registrationTime := 0
          lastActiveTime := 0
          totalRewards := 0
          threatsDetected := 0
          uptime := 0
          isVerified := false }
      else DePINNode.empty
    ownerNodes := fun o => if o = 7 then ["n1"] else []
    deviceTypeCounts := fun _ => 0
    nodeRewards := fun _ => 0
    allNodeIds := ["n1"]
    networkMetrics := ⟨1, 1, 0, 0, 5000, 0, 0⟩
    playerLevels := fun _ => 1
    experiencePoints := fun _ => 0
    paused := false }

/-- Result of an accepted updateNodeMetrics on `c6State` two days after
the node's previous update, with no new threats, no uptime delta and
unchanged 70% efficiency. -/
def c6Res : State :=
  (updateNodeMetrics c6State "n1" 0 0 7000 7 172800).getD c6State

/-- Reputation-update rule exactly as claim C6 states it: current score,
plus 10 per newly-detected threat, plus 50 if the uptime delta exceeds
one day, plus 25 if efficiency exceeds 8000, minus a decay of 100 basis
points per whole day elapsed since the node's previous update, clamped
to [0, 10000]. -/
def claimedReputation (current newThreats uptimeDelta energyEfficiency
    daysElapsed : Nat) : Nat :=
  let r1 := current + newThreats * 10
  let r2 := if 86400 < uptimeDelta then r1 + 50 else r1
  let r3 := if 8000 < energyEfficiency then r2 + 25 else r2
  let decay := r3 * 100 * daysElapsed / 10000
  let r4 := if decay < r3 then r3 - decay else 0
  min r4 10000

/-- Claim C6 is broken by the code: updateNodeMetrics writes
`lastActiveTime = block.timestamp` before `_updateReputation` reads it,
so the whole-days-elapsed decay window is always 0 and the claimed
daily decay never applies.  Two idle days should decay 5000 to 4900 per
the claim's formula, but the accepted call leaves the score at 5000. -/
theorem c6_decay_is_dead_code :
    updateNodeMetrics c6State "n1" 0 0 7000 7 172800 = some c6Res ∧
    (c6Res.nodes "n1").reputationScore = 5000 ∧
    claimedReputation 5000 0 0 7000 ((172800 - 0) / 86400) = 4900 :=
  ⟨rfl, by decide, by decide⟩

end Registry


namespace Oracle

/-- MIN_CONSENSUS: nodes required to verify an alert. -/
def MIN_CONSENSUS : Nat := 3

/-- DAG_BATCH_SIZE: pending queue length that triggers a batch. -/
def DAG_BATCH_SIZE : Nat := 100

/-- DAGTransaction struct of DAGShieldOracle.  `bytes32` hashes and
addresses are `Nat`; the calldata payload is a byte list. -/
structure DAGTransaction where
  txHash : Nat
  fromAddr : Nat
  toAddr : Nat
  value : Nat
  data : List Nat
  timestamp : Nat
  threatLevel : Nat
  isProcessed : Bool
  dependencies : List Nat
deriving DecidableEq, Repr

/-- All-zero mapping slot of `dagTransactions`. -/
def DAGTransaction.empty : DAGTransaction := ⟨0, 0, 0, 0, [], 0, 0, false, []⟩

/-- ThreatAlert struct.  `id = 0` (bytes32(0)) marks an empty slot. -/
structure ThreatAlert where
  id : Nat
  threatType : String
  confidence : Nat
  contractAddress : Nat
  transactionHash : Nat
  timestamp : Nat
  zkProof : Nat
  isVerified : Bool
  nodeConsensus : Nat
deriving DecidableEq, Repr

/-- All-zero mapping slot of `threatAlerts`. -/
def ThreatAlert.empty : ThreatAlert := ⟨0, "", 0, 0, 0, 0, 0, false, 0⟩

/-- CrossChainAlert struct; the abi-encoded payload is kept as the
alert value itself. -/
structure CrossChainAlert where
  sourceChainId : Nat
  targetChainId : Nat
  alertId : Nat
  alertData : ThreatAlert
  timestamp : Nat
  isRelayed : Bool
deriving DecidableEq, Repr

/-- Storage of the DAGShieldOracle contract.  The keccak key
`keccak256(alert.id, chainId)` of `crossChainAlerts` is modelled
injectively as the pair itself; a slot never written is `none`.
`keccakPair` abstracts `keccak256(txHash, timestamp)` for
self-generated alert ids; `chainid` is `block.chainid`. -/
structure State where
  owner : Nat
  chainid : Nat
  keccakPair : Nat → Nat → Nat
  dagTransactions : Nat → DAGTransaction
  threatAlerts : Nat → ThreatAlert
  crossChainAlerts : Nat × Nat → Option CrossChainAlert
  authorizedNodes : Nat → Bool
  supportedChains : Nat → Bool
  pendingDAGTxs : List Nat
  activeThreatAlerts : List Nat
  totalThreatsDetected : Nat
  totalDAGTransactions : Nat

/-- The four-byte selector at the head of a payload (0 when shorter). -/
def selectorOf (data : List Nat) : Nat :=
  match data with
  | b0 :: b1 :: b2 :: b3 :: _ => ((b0 * 256 + b1) * 256 + b2) * 256 + b3
  | _ => 0

/-- DAGShieldOracle._analyzeThreatLevel: on-chain heuristics. -/
def _analyzeThreatLevel (tx : DAGTransaction) : Nat :=
  let t1 := if 1000 * 10 ^ 18 < tx.value then 20 else 0
  let t2 := if 10000 < tx.data.length then t1 + 15 else t1
  let t3 := if 4 ≤ tx.data.length ∧
      (selectorOf tx.data = 0xa9059cbb ∨ selectorOf tx.data = 0x23b872dd ∨
       selectorOf tx.data = 0x095ea7b3) then t2 + 10 else t2
  if 100 < t3 then 100 else t3

/-- DAGShieldOracle._getThreatType. -/
def _getThreatType (level : Nat) : String :=
  if 90 ≤ level then "CRITICAL_EXPLOIT"
  else if 80 ≤ level then "HIGH_RISK_SCAM"
  else if 70 ≤ level then "SUSPICIOUS_ACTIVITY"
  else "LOW_RISK"

/-- DAGShieldOracle._canProcessTransaction: every dependency already
processed. -/
def _canProcessTransaction (s : State) (tx : DAGTransaction) : Bool :=
  tx.dependencies.all (fun d => (s.dagTransactions d).isProcessed)

/-- DAGShieldOracle._generateThreatAlert (alert id =
keccak256(txHash, timestamp)). -/
def _generateThreatAlert (s : State) (tx : DAGTransaction)
    (threatLevel now : Nat) : State :=
  let alertId := s.keccakPair tx.txHash now
  { s with
    threatAlerts := Function.update s.threatAlerts alertId
      { id := alertId
        threatType := _getThreatType threatLevel
        confidence := threatLevel
        contractAddress := tx.toAddr
        transactionHash := tx.txHash
        timestamp := now
        zkProof := 0
        isVerified := false
        nodeConsensus := 1 }
    activeThreatAlerts := s.activeThreatAlerts ++ [alertId]
    totalThreatsDetected := s.totalThreatsDetected + 1 }

/-- One iteration of the batch loop of _processDAGBatch: process the
vertex when its readiness check passes, leave it otherwise. -/
def processStep (now : Nat) (s : State) (txHash : Nat) : State :=
  let tx := s.dagTransactions txHash
  if _canProcessTransaction s tx = true then
    let threatLevel := _analyzeThreatLevel tx
    let tx1 := { tx with threatLevel := threatLevel, isProcessed := true }
    let s1 := { s with
      dagTransactions := Function.update s.dagTransactions txHash tx1 }
    if 70 < threatLevel then _generateThreatAlert s1 tx1 threatLevel now else s1
  else s

/-- DAGShieldOracle._processDAGBatch: one pass over the pending queue in
order, then the whole queue - processed or not - is deleted. -/
def _processDAGBatch (s : State) (now : Nat) : State :=
  let s1 := s.pendingDAGTxs.foldl (processStep now) s
  { s1 with pendingDAGTxs := [] }

/-- DAGShieldOracle.addDAGTransaction (onlyAuthorizedNode): stores the
vertex, queues it, and triggers a batch at DAG_BATCH_SIZE. -/
def addDAGTransaction (s : State) (caller txHash fromAddr toAddr value : Nat)
    (data deps : List Nat) (now : Nat) : Option State :=
  if s.authorizedNodes caller = false then none
  else if (s.dagTransactions txHash).isProcessed = true then none
  else
    let s1 := { s with
      dagTransactions := Function.update s.dagTransactions txHash
        ⟨txHash, fromAddr, toAddr, value, data, now, 0, false, deps⟩
      pendingDAGTxs := s.pendingDAGTxs ++ [txHash]
      totalDAGTransactions := s.totalDAGTransactions + 1 }
    if DAG_BATCH_SIZE ≤ s1.pendingDAGTxs.length
    then some (_processDAGBatch s1 now)
    else some s1

/-- DAGShieldOracle.processDAGBatch (onlyOwner). -/
def processDAGBatch (s : State) (caller now : Nat) : Option State :=
  if caller = s.owner then some (_processDAGBatch s now) else none

/-- Body of the _relayToCrossChains loop: record one cross-chain alert
for chain id `c` when it is supported and not the local chain. -/
def relayStep (alert : ThreatAlert) (now : Nat) (st : State) (c : Nat) : State :=
  if st.supportedChains c = true ∧ c ≠ st.chainid then
    { st with
      crossChainAlerts := Function.update st.crossChainAlerts (alert.id, c)
        (some ⟨st.chainid, c, alert.id, alert, now, false⟩) }
  else st

/-- DAGShieldOracle._relayToCrossChains: scan chain ids 1..100000 and
record one cross-chain alert per supported target chain other than the
local chain. -/
def _relayToCrossChains (s : State) (alert : ThreatAlert) (now : Nat) : State :=
  (List.range' 1 100000).foldl (relayStep alert now) s

/-- DAGShieldOracle.submitThreatAlert (onlyAuthorizedNode): create the
alert with consensus 1, or bump the consensus of an existing alert and,
on first reaching MIN_CONSENSUS, verify it and relay cross-chain. -/
def submitThreatAlert (s : State) (caller alertId : Nat) (threatType : String)
    (confidence contractAddress transactionHash zkProof now : Nat) :
    Option State :=
  if s.authorizedNodes caller = false then none
  else
    let alert := s.threatAlerts alertId
    if alert.id = 0 then
      some { s with
        threatAlerts := Function.update s.threatAlerts alertId
          { id := alertId
            threatType := threatType
            confidence := confidence
            contractAddress := contractAddress
            transactionHash := transactionHash
            timestamp := now
            zkProof := zkProof
            isVerified := alert.isVerified
            nodeConsensus := 1 }
        activeThreatAlerts := s.activeThreatAlerts ++ [alertId]
        totalThreatsDetected := s.totalThreatsDetected + 1 }
    else
      let alert1 := { alert with nodeConsensus := alert.nodeConsensus + 1 }
      if MIN_CONSENSUS ≤ alert1.nodeConsensus ∧ alert1.isVerified = false then
        let alert2 := { alert1 with isVerified := true }
        let s1 := { s with
          threatAlerts := Function.update s.threatAlerts alertId alert2 }
        some (_relayToCrossChains s1 alert2 now)
      else
        some { s with
          threatAlerts := Function.update s.threatAlerts alertId alert1 }

/-- DAGShieldOracle.fulfillCrossChainRelay (Chainlink callback): mark
one relay record delivered.  A callback on a never-written slot would
write the all-zero record with isRelayed set; kept as `none`. -/
def fulfillCrossChainRelay (s : State) (key : Nat × Nat) : State :=
  match s.crossChainAlerts key with
  | none => s
  | some rec1 =>
    { s with
      crossChainAlerts :=
        Function.update s.crossChainAlerts key
          (some { rec1 with isRelayed := true }) }

/-- DAGShieldOracle.setNodeAuthorization (onlyOwner). -/
def setNodeAuthorization (s : State) (caller node : Nat) (authorized : Bool) :
    Option State :=
  if caller = s.owner then
    some { s with authorizedNodes := Function.update s.authorizedNodes node authorized }
  else none

/-- DAGShieldOracle.setSupportedChain (onlyOwner). -/
def setSupportedChain (s : State) (caller chainId : Nat) (supported : Bool) :
    Option State :=
  if caller = s.owner then
    some { s with supportedChains := Function.update s.supportedChains chainId supported }
  else none

/-- Constructor state of DAGShieldOracle: chains 1, 137, 56, 43114 and
250 supported, nothing pending, no authorized node. -/
def initState (deployer chainid : Nat) (keccakPair : Nat → Nat → Nat) : State :=
  { owner := deployer
    chainid := chainid
    keccakPair := keccakPair
    dagTransactions := fun _ => DAGTransaction.empty
    threatAlerts := fun _ => ThreatAlert.empty
    crossChainAlerts := fun _ => none
    authorizedNodes := fun _ => false
    supportedChains := fun c =>
      c = 1 ∨ c = 137 ∨ c = 56 ∨ c = 43114 ∨ c = 250
    pendingDAGTxs := []
    activeThreatAlerts := []
    totalThreatsDetected := 0
    totalDAGTransactions := 0 }

/-- One externally-invoked operation of the oracle. -/
inductive Step : State → State → Prop
| addDAGTransaction (s s' : State) (caller txHash fromAddr toAddr value : Nat)
    (data deps : List Nat) (now : Nat) :
    addDAGTransaction s caller txHash fromAddr toAddr value data deps now
      = some s' → Step s s'
| processDAGBatch (s s' : State) (caller now : Nat) :
    processDAGBatch s caller now = some s' → Step s s'
| submitThreatAlert (s s' : State) (caller alertId : Nat)
    (threatType : String)
    (confidence contractAddress transactionHash zkProof now : Nat) :
    submitThreatAlert s caller alertId threatType confidence
      contractAddress transactionHash zkProof now = some s' → Step s s'
| fulfillCrossChainRelay (s s' : State) (key : Nat × Nat) :
    s' = fulfillCrossChainRelay s key → Step s s'
| setNodeAuthorization (s s' : State) (caller node : Nat) (authorized : Bool) :
    setNodeAuthorization s caller node authorized = some s' → Step s s'
| setSupportedChain (s s' : State) (caller chainId : Nat) (supported : Bool) :
    setSupportedChain s caller chainId supported = some s' → Step s s'

/-- States reachable from `s0` by oracle operations. -/
inductive Reach (s0 : State) : State → Prop
| refl : Reach s0 s0
| step {s s' : State} : Reach s0 s → Step s s' → Reach s0 s'

/-- `relayStep` changes nothing but the cross-chain record table. -/
theorem relayStep_fields (alert : ThreatAlert) (now : Nat) (st : State)
    (c : Nat) :
    (relayStep alert now st c).owner = st.owner ∧
    (relayStep alert now st c).chainid = st.chainid ∧
    (relayStep alert now st c).keccakPair = st.keccakPair ∧
    (relayStep alert now st c).dagTransactions = st.dagTransactions ∧
    (relayStep alert now st c).threatAlerts = st.threatAlerts ∧
    (relayStep alert now st c).authorizedNodes = st.authorizedNodes ∧
    (relayStep alert now st c).supportedChains = st.supportedChains ∧
    (relayStep alert now st c).pendingDAGTxs = st.pendingDAGTxs ∧
    (relayStep alert now st c).activeThreatAlerts = st.activeThreatAlerts ∧
    (relayStep alert now st c).totalThreatsDetected = st.totalThreatsDetected ∧
    (relayStep alert now st c).totalDAGTransactions = st.totalDAGTransactions := by
  unfold relayStep
  split_ifs <;> exact ⟨rfl, rfl, rfl, rfl, rfl, rfl, rfl, rfl, rfl, rfl, rfl⟩

/-- Pointwise effect of `relayStep` on the cross-chain record table. -/
theorem relayStep_cca (alert : ThreatAlert) (now : Nat) (st : State)
    (c : Nat) (p : Nat × Nat) :
    (relayStep alert now st c).crossChainAlerts p =
      if p = (alert.id, c) ∧ st.supportedChains c = true ∧ c ≠ st.chainid
      then some ⟨st.chainid, c, alert.id, alert, now, false⟩
      else st.crossChainAlerts p := by
  unfold relayStep
  by_cases h : st.supportedChains c = true ∧ c ≠ st.chainid
  · rw [if_pos h]
    dsimp only
    by_cases hp : p = (alert.id, c)
    · rw [hp, Function.update_same, if_pos ⟨rfl, h.1, h.2⟩]
    · rw [Function.update_noteq hp, if_neg (fun hc => hp hc.1)]
  · rw [if_neg h, if_neg (fun hc => h ⟨hc.2.1, hc.2.2⟩)]

/-- The relay scan changes nothing but the cross-chain record table. -/
theorem relay_foldl_fields (alert : ThreatAlert) (now : Nat) (l : List Nat)
    (s : State) :
    (l.foldl (relayStep alert now) s).owner = s.owner ∧
    (l.foldl (relayStep alert now) s).chainid = s.chainid ∧
    (l.foldl (relayStep alert now) s).keccakPair = s.keccakPair ∧
    (l.foldl (relayStep alert now) s).dagTransactions = s.dagTransactions ∧
    (l.foldl (relayStep alert now) s).threatAlerts = s.threatAlerts ∧
    (l.foldl (relayStep alert now) s).authorizedNodes = s.authorizedNodes ∧
    (l.foldl (relayStep alert now) s).supportedChains = s.supportedChains ∧
    (l.foldl (relayStep alert now) s).pendingDAGTxs = s.pendingDAGTxs ∧
    (l.foldl (relayStep alert now) s).activeThreatAlerts = s.activeThreatAlerts ∧
    (l.foldl (relayStep alert now) s).totalThreatsDetected
      = s.totalThreatsDetected ∧
    (l.foldl (relayStep alert now) s).totalDAGTransactions
      = s.totalDAGTransactions := by
  induction l generalizing s with
  | nil => exact ⟨rfl, rfl, rfl, rfl, rfl, rfl, rfl, rfl, rfl, rfl, rfl⟩
  | cons a l ih =>
    rw [List.foldl_cons]
    obtain ⟨f1, f2, f3, f4, f5, f6, f7, f8, f9, f10, f11⟩ :=
      relayStep_fields alert now s a
    obtain ⟨g1, g2, g3, g4, g5, g6, g7, g8, g9, g10, g11⟩ :=
      ih (relayStep alert now s a)
    exact ⟨g1.trans f1, g2.trans f2, g3.trans f3, g4.trans f4, g5.trans f5,
      g6.trans f6, g7.trans f7, g8.trans f8, g9.trans f9, g10.trans f10,
      g11.trans f11⟩

/-- The relay scan leaves a cross-chain slot untouched when its key is
not one the scan writes: wrong alert id, chain id outside the scanned
list, unsupported chain, or the local chain. -/
theorem relay_foldl_cca_other (alert : ThreatAlert) (now : Nat)
    (l : List Nat) (s : State) (p : Nat × Nat)
    (h : p.1 ≠ alert.id ∨ p.2 ∉ l ∨ s.supportedChains p.2 = false ∨
      p.2 = s.chainid) :
    (l.foldl (relayStep alert now) s).crossChainAlerts p
      = s.crossChainAlerts p := by
  induction l generalizing s with
  | nil => rfl
  | cons a l ih =>
    rw [List.foldl_cons]
    obtain ⟨_, f2, _, _, _, _, f7, _, _, _, _⟩ := relayStep_fields alert now s a
    have hstep : (relayStep alert now s a).crossChainAlerts p
        = s.crossChainAlerts p := by
      rw [relayStep_cca]
      rw [if_neg]
      intro hc
      obtain ⟨hp, hsup, hne⟩ := hc
      rcases h with h | h | h | h
      · exact h (by rw [hp])
      · exact h (by rw [hp]; exact List.mem_cons_self a l)
      · rw [hp] at h
        dsimp only at h
        rw [h] at hsup
        cases hsup
      · apply hne
        rw [hp] at h
        dsimp only at h
        rw [← h]
    have hrest : (l.foldl (relayStep alert now) (relayStep alert now s a)).crossChainAlerts p
        = (relayStep alert now s a).crossChainAlerts p := by
      apply ih
      rcases h with h | h | h | h
      · exact Or.inl h
      · exact Or.inr (Or.inl (fun hm => h (List.mem_cons_of_mem a hm)))
      · exact Or.inr (Or.inr (Or.inl (by rw [f7]; exact h)))
      · exact Or.inr (Or.inr (Or.inr (by rw [f2]; exact h)))
    rw [hrest, hstep]

/-- The relay scan writes exactly the expected record at the key of a
supported, non-local chain id in the scanned list (whatever the slot
held before, and no matter how often the id occurs). -/
theorem relay_foldl_cca_mem (alert : ThreatAlert) (now : Nat)
    (l : List Nat) (s : State) (ch : Nat)
    (hm : ch ∈ l) (hsup : s.supportedChains ch = true) (hne : ch ≠ s.chainid) :
    (l.foldl (relayStep alert now) s).crossChainAlerts (alert.id, ch)
      = some ⟨s.chainid, ch, alert.id, alert, now, false⟩ := by
  induction l generalizing s with
  | nil => cases hm
  | cons a l ih =>
    rw [List.foldl_cons]
    obtain ⟨_, f2, _, _, _, _, f7, _, _, _, _⟩ := relayStep_fields alert now s a
    by_cases hml : ch ∈ l
    · rw [ih (relayStep alert now s a) hml (by rw [f7]; exact hsup)
        (by rw [f2]; exact hne), f2]
    · have ha : ch = a := by
        rcases List.mem_cons.mp hm with h | h
        · exact h
        · exact absurd h hml
      subst ha
      rw [relay_foldl_cca_other alert now l (relayStep alert now s ch)
        (alert.id, ch) (Or.inr (Or.inl hml))]
      rw [relayStep_cca]
      rw [if_pos ⟨rfl, hsup, hne⟩]

/-- Unfolding equation of `_relayToCrossChains`. -/
theorem relay_def (s : State) (alert : ThreatAlert) (now : Nat) :
    _relayToCrossChains s alert now
      = (List.range' 1 100000).foldl (relayStep alert now) s := rfl

attribute [irreducible] _relayToCrossChains

/-- `_relayToCrossChains` does not touch the threat-alert table (nor any
field other than the cross-chain records). -/
theorem relay_threatAlerts (s : State) (alert : ThreatAlert) (now : Nat) :
    (_relayToCrossChains s alert now).threatAlerts = s.threatAlerts := by
  rw [relay_def]
  exact (relay_foldl_fields alert now (List.range' 1 100000) s).2.2.2.2.1

/-- Cross-chain record written by `_relayToCrossChains` for a supported
non-local chain id within the scanned range 1..100000. -/
theorem relay_cca_mem (s : State) (alert : ThreatAlert) (now ch : Nat)
    (h1 : 1 ≤ ch) (h2 : ch ≤ 100000)
    (hsup : s.supportedChains ch = true) (hne : ch ≠ s.chainid) :
    (_relayToCrossChains s alert now).crossChainAlerts (alert.id, ch)
      = some ⟨s.chainid, ch, alert.id, alert, now, false⟩ := by
  have hm : ch ∈ List.range' 1 100000 := by
    rw [List.mem_range'_1]
    omega
  rw [relay_def]
  exact relay_foldl_cca_mem alert now (List.range' 1 100000) s ch hm hsup hne

/-- `_relayToCrossChains` leaves every slot outside its write set alone:
other alert ids, chain ids outside 1..100000, unsupported chains, and
the local chain. -/
theorem relay_cca_other (s : State) (alert : ThreatAlert) (now : Nat)
    (p : Nat × Nat)
    (h : p.1 ≠ alert.id ∨ p.2 < 1 ∨ 100000 < p.2 ∨
      s.supportedChains p.2 = false ∨ p.2 = s.chainid) :
    (_relayToCrossChains s alert now).crossChainAlerts p
      = s.crossChainAlerts p := by
  rw [relay_def]
  refine relay_foldl_cca_other alert now (List.range' 1 100000) s p ?_
  rcases h with h | h | h | h | h
  · exact Or.inl h
  · refine Or.inr (Or.inl ?_)
    rw [List.mem_range'_1]
    omega
  · refine Or.inr (Or.inl ?_)
    rw [List.mem_range'_1]
    omega
  · exact Or.inr (Or.inr (Or.inl h))
  · exact Or.inr (Or.inr (Or.inr h))

/-- Per-alert well-formedness of the alert table, as the contract
maintains it: an empty-id slot is the all-zero record, and a nonempty
slot stores its own key as id. -/
def AlertWF (s : State) (a : Nat) : Prop :=
  ((s.threatAlerts a).id = 0 → s.threatAlerts a = ThreatAlert.empty) ∧
  ((s.threatAlerts a).id ≠ 0 → (s.threatAlerts a).id = a)

set_option maxRecDepth 8192 in
/-- Everything one non-reverting `submitThreatAlert` does to its own
alert and to the cross-chain records, for a well-formed nonzero alert
id: the consensus count rises by exactly one; the stored id becomes the
key; the verified flag becomes true exactly when it already was or the
count first reaches MIN_CONSENSUS on an existing alert; other alerts
are untouched; the authorization, chain and support tables are
untouched; and relay records are created exactly at the verifying
submission, one per supported non-local chain in the scanned range. -/
theorem submit_spec (s s' : State) (c a : Nat) (ty : String)
    (cf ca tx zk now : Nat) (ha : a ≠ 0) (hwf : AlertWF s a)
    (h : submitThreatAlert s c a ty cf ca tx zk now = some s') :
    (s'.threatAlerts a).nodeConsensus
      = (s.threatAlerts a).nodeConsensus + 1 ∧
    (s'.threatAlerts a).id = a ∧
    ((s'.threatAlerts a).isVerified = true ↔
      ((s.threatAlerts a).isVerified = true ∨
        ((s.threatAlerts a).id ≠ 0 ∧
          MIN_CONSENSUS ≤ (s.threatAlerts a).nodeConsensus + 1))) ∧
    (∀ b : Nat, b ≠ a → s'.threatAlerts b = s.threatAlerts b) ∧
    (s'.supportedChains = s.supportedChains ∧ s'.chainid = s.chainid ∧
      s'.authorizedNodes = s.authorizedNodes) ∧
    (((s.threatAlerts a).id ≠ 0 ∧ (s.threatAlerts a).isVerified = false ∧
        MIN_CONSENSUS ≤ (s.threatAlerts a).nodeConsensus + 1) →
      (∀ ch : Nat, 1 ≤ ch → ch ≤ 100000 →
        s.supportedChains ch = true → ch ≠ s.chainid →
        s'.crossChainAlerts (a, ch)
          = some ⟨s.chainid, ch, a,
              { s.threatAlerts a with
                nodeConsensus := (s.threatAlerts a).nodeConsensus + 1
                isVerified := true }, now, false⟩) ∧
      (∀ p : Nat × Nat, p.1 ≠ a →
        s'.crossChainAlerts p = s.crossChainAlerts p)) ∧
    (¬((s.threatAlerts a).id ≠ 0 ∧ (s.threatAlerts a).isVerified = false ∧
        MIN_CONSENSUS ≤ (s.threatAlerts a).nodeConsensus + 1) →
      s'.crossChainAlerts = s.crossChainAlerts) ∧
    (∀ p : Nat × Nat,
      p.2 < 1 ∨ 100000 < p.2 ∨ s.supportedChains p.2 = false ∨
        p.2 = s.chainid →
      s'.crossChainAlerts p = s.crossChainAlerts p) := by
  unfold submitThreatAlert at h
  dsimp only at h
  split_ifs at h with h1 h2 h3
  · -- new-alert branch: the stored id was zero, the slot was all zero
    cases h
    dsimp only
    have hempty := hwf.1 h2
    refine ⟨?_, ?_, ?_, ?_, ⟨rfl, rfl, rfl⟩, ?_, fun _ => rfl, fun p _ => rfl⟩
    · rw [Function.update_same, hempty]
      rfl
    · rw [Function.update_same]
    · rw [Function.update_same, hempty]
      simp [ThreatAlert.empty, MIN_CONSENSUS]
    · intro b hb
      exact Function.update_noteq hb _ _
    · intro hc
      exact absurd h2 hc.1
  · -- verifying branch: existing alert first reaches the threshold
    cases h
    have hid : (s.threatAlerts a).id = a := hwf.2 h2
    rw [relay_threatAlerts]
    dsimp only
    refine ⟨?_, ?_, ?_, ?_, ?_, ?_, ?_, ?_⟩
    · rw [Function.update_same]
    · rw [Function.update_same]
      exact hid
    · rw [Function.update_same]
      simp only [true_iff]
      exact Or.inr ⟨h2, h3.1⟩
    · intro b hb
      exact Function.update_noteq hb _ _
    · rw [relay_def]
      obtain ⟨f1, f2, f3, f4, f5, f6, f7, f8, f9, f10, f11⟩ :=
        relay_foldl_fields
          { s.threatAlerts a with
            nodeConsensus := (s.threatAlerts a).nodeConsensus + 1
            isVerified := true } now (List.range' 1 100000)
          { s with
            threatAlerts := Function.update s.threatAlerts a
              { s.threatAlerts a with
                nodeConsensus := (s.threatAlerts a).nodeConsensus + 1
                isVerified := true } }
      exact ⟨f7, f2, f6⟩
    · intro _
      constructor
      · intro ch hch1 hch2 hsup hne
        have hmem := relay_cca_mem
          { s with
            threatAlerts := Function.update s.threatAlerts a
              { s.threatAlerts a with
                nodeConsensus := (s.threatAlerts a).nodeConsensus + 1
                isVerified := true } }
          { s.threatAlerts a with
            nodeConsensus := (s.threatAlerts a).nodeConsensus + 1
            isVerified := true } now ch hch1 hch2 hsup hne
      
        rw [show ({ s.threatAlerts a with
            nodeConsensus := (s.threatAlerts a).nodeConsensus + 1
            isVerified := true } : ThreatAlert).id = a from hid] at hmem
        exact hmem
      · intro p hp
        apply relay_cca_other
        left
        rw [show ({ s.threatAlerts a with
            nodeConsensus := (s.threatAlerts a).nodeConsensus + 1
            isVerified := true } : ThreatAlert).id = a from hid]
        exact hp
    · intro hc
      exact absurd ⟨h2, h3.2, h3.1⟩ hc
    · intro p hp
      refine relay_cca_other _ _ _ p ?_
      rcases hp with hp | hp | hp | hp
      · exact Or.inr (Or.inl hp)
      · exact Or.inr (Or.inr (Or.inl hp))
      · exact Or.inr (Or.inr (Or.inr (Or.inl hp)))
      · exact Or.inr (Or.inr (Or.inr (Or.inr hp)))
  · -- bookkeeping branch: existing alert, no (new) verification
    cases h
    dsimp only
    have hid : (s.threatAlerts a).id = a := hwf.2 h2
    refine ⟨?_, ?_, ?_, ?_, ⟨rfl, rfl, rfl⟩, ?_, fun _ => rfl, fun p _ => rfl⟩
    · rw [Function.update_same]
    · rw [Function.update_same]
      exact hid
    · rw [Function.update_same]
      dsimp only
      by_cases hv : (s.threatAlerts a).isVerified = true
      · simp [hv]
      · have hv' : (s.threatAlerts a).isVerified = false :=
          Bool.not_eq_true _ ▸ (by simpa using hv)
        have hcnt : ¬ MIN_CONSENSUS ≤ (s.threatAlerts a).nodeConsensus + 1 :=
          fun hc => h3 ⟨hc, hv'⟩
        simp [hv', hcnt]
    · intro b hb
      exact Function.update_noteq hb _ _
    · intro hc
      exact absurd ⟨hc.2.2, hc.2.1⟩ h3

/-- Fields of `_relayToCrossChains` other than the cross-chain records. -/
theorem relay_other_fields (s : State) (alert : ThreatAlert) (now : Nat) :
    (_relayToCrossChains s alert now).supportedChains = s.supportedChains ∧
    (_relayToCrossChains s alert now).chainid = s.chainid ∧
    (_relayToCrossChains s alert now).authorizedNodes = s.authorizedNodes ∧
    (_relayToCrossChains s alert now).owner = s.owner ∧
    (_relayToCrossChains s alert now).dagTransactions = s.dagTransactions ∧
    (_relayToCrossChains s alert now).pendingDAGTxs = s.pendingDAGTxs := by
  rw [relay_def]
  obtain ⟨f1, f2, f3, f4, f5, f6, f7, f8, f9, f10, f11⟩ :=
    relay_foldl_fields alert now (List.range' 1 100000) s
  exact ⟨f7, f2, f6, f1, f4, f8⟩

/-- A submission to one alert id leaves every other alert unchanged. -/
theorem submit_other_alerts (s s' : State) (c b : Nat) (ty : String)
    (cf ca tx zk now : Nat)
    (h : submitThreatAlert s c b ty cf ca tx zk now = some s')
    (x : Nat) (hx : x ≠ b) : s'.threatAlerts x = s.threatAlerts x := by
  unfold submitThreatAlert at h
  dsimp only at h
  split_ifs at h with h2 h3
  all_goals cases h
  all_goals first
    | (dsimp only
       exact Function.update_noteq hx _ _)
    | (rw [relay_threatAlerts]
       dsimp only
       exact Function.update_noteq hx _ _)

/-- A submission keeps the authorization, chain-support, local-chain and
DAG tables unchanged. -/
theorem submit_fields (s s' : State) (c b : Nat) (ty : String)
    (cf ca tx zk now : Nat)
    (h : submitThreatAlert s c b ty cf ca tx zk now = some s') :
    s'.supportedChains = s.supportedChains ∧ s'.chainid = s.chainid ∧
    s'.authorizedNodes = s.authorizedNodes ∧
    s'.dagTransactions = s.dagTransactions ∧
    s'.pendingDAGTxs = s.pendingDAGTxs := by
  unfold submitThreatAlert at h
  dsimp only at h
  split_ifs at h with h2 h3
  all_goals cases h
  all_goals first
    | exact ⟨rfl, rfl, rfl, rfl, rfl⟩
    | (obtain ⟨g1, g2, g3, _, g5, g6⟩ := relay_other_fields
        { s with
          threatAlerts := Function.update s.threatAlerts b
            { s.threatAlerts b with
              nodeConsensus := (s.threatAlerts b).nodeConsensus + 1
              isVerified := true } }
        { s.threatAlerts b with
          nodeConsensus := (s.threatAlerts b).nodeConsensus + 1
          isVerified := true } now
       exact ⟨g1, g2, g3, g5, g6⟩)

/-- A submission to any (nonzero) alert id preserves the
well-formedness of a given nonzero alert id. -/
theorem submit_wf_preserved (s s' : State) (c b : Nat) (ty : String)
    (cf ca tx zk now : Nat) (a : Nat) (ha : a ≠ 0) (hwf : AlertWF s a)
    (hb : b ≠ 0)
    (h : submitThreatAlert s c b ty cf ca tx zk now = some s') :
    AlertWF s' a := by
  by_cases hab : a = b
  · subst hab
    obtain ⟨_, hid, _, _, _, _, _, _⟩ :=
      submit_spec s s' c a ty cf ca tx zk now ha hwf h
    constructor
    · intro h0
      exact absurd (hid.symm.trans h0) ha
    · intro _
      exact hid
  · have heq := submit_other_alerts s s' c b ty cf ca tx zk now h a hab
    constructor
    · intro h0
      rw [heq] at h0 ⊢
      exact hwf.1 h0
    · intro h0
      rw [heq] at h0 ⊢
      exact hwf.2 h0

/-- One non-reverting submitThreatAlert call, on any nonzero alert id. -/
inductive SubmitStep : State → State → Prop
| mk (s s' : State) (caller alertId : Nat) (threatType : String)
    (confidence contractAddress transactionHash zkProof now : Nat) :
    alertId ≠ 0 →
    submitThreatAlert s caller alertId threatType confidence
      contractAddress transactionHash zkProof now = some s' →
    SubmitStep s s'

/-- States reachable by a sequence of submitThreatAlert calls. -/
inductive SubmitReach (s0 : State) : State → Prop
| refl : SubmitReach s0 s0
| step {s s' : State} : SubmitReach s0 s → SubmitStep s s' → SubmitReach s0 s'

/-- Along any sequence of submissions, a well-formed alert stays
well-formed, its consensus count never decreases, and its verified flag
never returns to false. -/
theorem submit_reach_mono (s0 s : State) (a : Nat) (ha : a ≠ 0)
    (hwf : AlertWF s0 a) (h : SubmitReach s0 s) :
    AlertWF s a ∧
    (s0.threatAlerts a).nodeConsensus ≤ (s.threatAlerts a).nodeConsensus ∧
    ((s0.threatAlerts a).isVerified = true →
      (s.threatAlerts a).isVerified = true) := by
  induction h with
  | refl => exact ⟨hwf, Nat.le_refl _, fun hv => hv⟩
  | step hr hs ih =>
    obtain ⟨ihwf, ihc, ihv⟩ := ih
    cases hs with
    | mk c b ty cf ca tx zk now hb hsub =>
      by_cases hab : a = b
      · subst hab
        obtain ⟨hc1, hid, hviff, _, _, _, _, _⟩ :=
          submit_spec _ _ c a ty cf ca tx zk now ha ihwf hsub
        refine ⟨⟨fun h0 => absurd (hid.symm.trans h0) ha, fun _ => hid⟩,
          by omega, ?_⟩
        intro hv0
        exact hviff.mpr (Or.inl (ihv hv0))
      · have heq := submit_other_alerts _ _ c b ty cf ca tx zk now hsub a hab
        refine ⟨?_, by rw [heq]; exact ihc, by rw [heq]; exact ihv⟩
        constructor
        · intro h0
          rw [heq] at h0 ⊢
          exact ihwf.1 h0
        · intro h0
          rw [heq] at h0 ⊢
          exact ihwf.2 h0

/-- Post-condition of one accepted submitThreatAlert call on a
well-formed nonzero alert id `a` at time `now`, as the (amended) claim
states it: the confirming-node count rises by exactly one; the verified
flag becomes true exactly when it already was true or the count first
reaches the threshold of 3 on an existing alert; at that verifying
submission one relay record is written per currently-supported target
chain with id in the scanned range 1..100000 (other than the source
chain) and no record with another alert id is touched; and a submission
to an already-verified alert changes no relay record at all. -/
def SubmitPost (s s' : State) (a now : Nat) : Prop :=
  (s'.threatAlerts a).nodeConsensus = (s.threatAlerts a).nodeConsensus + 1 ∧
  ((s'.threatAlerts a).isVerified = true ↔
    ((s.threatAlerts a).isVerified = true ∨
      ((s.threatAlerts a).id ≠ 0 ∧
        MIN_CONSENSUS ≤ (s.threatAlerts a).nodeConsensus + 1))) ∧
  (((s.threatAlerts a).id ≠ 0 ∧ (s.threatAlerts a).isVerified = false ∧
      MIN_CONSENSUS ≤ (s.threatAlerts a).nodeConsensus + 1) →
    (∀ ch : Nat, 1 ≤ ch → ch ≤ 100000 → s.supportedChains ch = true →
      ch ≠ s.chainid →
      s'.crossChainAlerts (a, ch) = some ⟨s.chainid, ch, a,
        { s.threatAlerts a with
          nodeConsensus := (s.threatAlerts a).nodeConsensus + 1
          isVerified := true }, now, false⟩) ∧
    (∀ p : Nat × Nat, p.1 ≠ a →
      s'.crossChainAlerts p = s.crossChainAlerts p)) ∧
  ((s.threatAlerts a).isVerified = true →
    s'.crossChainAlerts = s.crossChainAlerts) ∧
  (∀ p : Nat × Nat, 100000 < p.2 →
    s'.crossChainAlerts p = s.crossChainAlerts p)

/-- Claim C2 (amended with the scan bound): over submitThreatAlert
sequences the confirming-node count never decreases and the verified
flag never falls back (so it transitions false to true at most once),
and each accepted submission satisfies `SubmitPost`: verification
happens exactly when the count first reaches 3, with one relay record
per currently-supported target chain inside the scanned id range
1..100000, and no relay effect on later submissions. -/
theorem c2_consensus_and_bounded_relay :
    (∀ (s0 s : State) (a : Nat), a ≠ 0 → AlertWF s0 a → SubmitReach s0 s →
      (s0.threatAlerts a).nodeConsensus ≤ (s.threatAlerts a).nodeConsensus ∧
      ((s0.threatAlerts a).isVerified = true →
        (s.threatAlerts a).isVerified = true)) ∧
    (∀ (s s' : State) (c a : Nat) (ty : String) (cf ca tx zk now : Nat),
      a ≠ 0 → AlertWF s a →
      submitThreatAlert s c a ty cf ca tx zk now = some s' →
      SubmitPost s s' a now) := by
  constructor
  · intro s0 s a ha hwf h
    exact (submit_reach_mono s0 s a ha hwf h).2
  · intro s s' c a ty cf ca tx zk now ha hwf h
    obtain ⟨h1, _, h3, _, _, h6, h7, h8⟩ :=
      submit_spec s s' c a ty cf ca tx zk now ha hwf h
    refine ⟨h1, h3, h6, ?_, fun p hp => h8 p (Or.inr (Or.inl hp))⟩
    intro hv
    apply h7
    intro hc
    rw [hv] at hc
    simp at hc

/-- Oracle state with an unverified alert 5 at consensus 2, authorized
node 7, and chain id 150000 currently supported (outside the relay
scan's 1..100000 range). -/
def c2CexState : State :=
  { owner := 0
    chainid := 1
    keccakPair := fun _ _ => 0
    dagTransactions := fun _ => DAGTransaction.empty
    threatAlerts := fun x =>
      if x = 5 then ⟨5, "exploit", 80, 11, 22, 3, 0, false, 2⟩
      else ThreatAlert.empty
    crossChainAlerts := fun _ => none
    authorizedNodes := fun n => n = 7
    supportedChains := fun c => c = 1 ∨ c = 150000
    pendingDAGTxs := []
    activeThreatAlerts := [5]
    totalThreatsDetected := 1
    totalDAGTransactions := 0 }

/-- Counterexample to claim C2 as stated: the submission that verifies
alert 5 creates no relay record for the currently-supported target
chain 150000 (it is not the source chain), because the relay loop only
scans chain ids 1..100000. -/
theorem c2_supported_chain_without_relay :
    c2CexState.supportedChains 150000 = true ∧
    (150000 : Nat) ≠ c2CexState.chainid ∧
    ∃ s' : State,
      submitThreatAlert c2CexState 7 5 "exploit" 80 11 22 0 9 = some s' ∧
      (s'.threatAlerts 5).isVerified = true ∧
      s'.crossChainAlerts (5, 150000) = none := by
  have hwf : AlertWF c2CexState 5 :=
    ⟨fun h0 => absurd h0 (by decide), fun _ => by decide⟩
  obtain ⟨s', hs'⟩ : ∃ s' : State,
      submitThreatAlert c2CexState 7 5 "exploit" 80 11 22 0 9 = some s' := by
    unfold submitThreatAlert
    dsimp only
    rw [if_neg (by decide), if_neg (by decide), if_pos (by decide)]
    exact ⟨_, rfl⟩
  obtain ⟨h1, h2, h3, h4, h5, h6, h7, h8⟩ :=
    submit_spec c2CexState s' 7 5 "exploit" 80 11 22 0 9 (by decide) hwf hs'
  refine ⟨by decide, by decide, s', hs', ?_, ?_⟩
  · exact h3.mpr (Or.inr ⟨by decide, by decide⟩)
  · exact (h8 (5, 150000) (Or.inr (Or.inl (by norm_num)))).trans rfl

/-- Oracle state for the C2 witness: unverified alert 5 at consensus 2,
authorized node 7, chains 1 (local) and 137 supported. -/
def c2WState : State :=
  { owner := 0
    chainid := 1
    keccakPair := fun _ _ => 0
    dagTransactions := fun _ => DAGTransaction.empty
    threatAlerts := fun x =>
      if x = 5 then ⟨5, "exploit", 80, 11, 22, 3, 0, false, 2⟩
      else ThreatAlert.empty
    crossChainAlerts := fun _ => none
    authorizedNodes := fun n => n = 7
    supportedChains := fun c => c = 1 ∨ c = 137
    pendingDAGTxs := []
    activeThreatAlerts := [5]
    totalThreatsDetected := 1
    totalDAGTransactions := 0 }

/-- Witness for (amended) C2 at concrete inputs: one submission step
from `c2WState` keeps the count and flag monotone and satisfies the
stated post-condition. -/
theorem c2_consensus_and_bounded_relay_witness :
    ∃ s' : State,
      submitThreatAlert c2WState 7 5 "exploit" 80 11 22 0 9 = some s' ∧
      ((c2WState.threatAlerts 5).nodeConsensus
          ≤ (s'.threatAlerts 5).nodeConsensus ∧
        ((c2WState.threatAlerts 5).isVerified = true →
          (s'.threatAlerts 5).isVerified = true)) ∧
      SubmitPost c2WState s' 5 9 := by
  obtain ⟨s', hs'⟩ : ∃ s' : State,
      submitThreatAlert c2WState 7 5 "exploit" 80 11 22 0 9 = some s' := by
    unfold submitThreatAlert
    dsimp only
    rw [if_neg (by decide), if_neg (by decide), if_pos (by decide)]
    exact ⟨_, rfl⟩
  have hwf : AlertWF c2WState 5 :=
    ⟨fun h0 => absurd h0 (by decide), fun _ => by decide⟩
  exact ⟨s', hs',
    c2_consensus_and_bounded_relay.1 c2WState s' 5 (by decide) hwf
      (SubmitReach.step SubmitReach.refl
        (SubmitStep.mk c2WState s' 7 5 "exploit" 80 11 22 0 9
          (by decide) hs')),
    c2_consensus_and_bounded_relay.2 c2WState s' 7 5 "exploit" 80 11 22 0 9
      (by decide) hwf hs'⟩

/-- A non-reverting submitThreatAlert call implies its caller was
authorized at the time of the call. -/
theorem submit_authorized (s s' : State) (c a : Nat) (ty : String)
    (cf ca tx zk now : Nat)
    (h : submitThreatAlert s c a ty cf ca tx zk now = some s') :
    s.authorizedNodes c = true := by
  cases hb : s.authorizedNodes c with
  | false =>
    unfold submitThreatAlert at h
    rw [if_pos hb] at h
    cases h
  | true => rfl

/-- Claim C10: consensus confirmations are not deduplicated per node -
three submitThreatAlert calls by one and the same caller on a fresh
alert id (the first creating the alert with count 1, the next two
incrementing it) reach the threshold MIN_CONSENSUS = 3 and set
verified = true; the only identity requirement is that the caller is
authorized. -/
theorem c10_single_node_consensus (s0 s1 s2 s3 : State) (c a : Nat)
    (ty : String) (cf ca tx zk n1 n2 n3 : Nat)
    (ha : a ≠ 0) (hwf : AlertWF s0 a) (h0 : (s0.threatAlerts a).id = 0)
    (h1 : submitThreatAlert s0 c a ty cf ca tx zk n1 = some s1)
    (h2 : submitThreatAlert s1 c a ty cf ca tx zk n2 = some s2)
    (h3 : submitThreatAlert s2 c a ty cf ca tx zk n3 = some s3) :
    s0.authorizedNodes c = true ∧
    (s1.threatAlerts a).nodeConsensus = 1 ∧
    (s1.threatAlerts a).isVerified = false ∧
    (s2.threatAlerts a).nodeConsensus = 2 ∧
    (s2.threatAlerts a).isVerified = false ∧
    (s3.threatAlerts a).nodeConsensus = 3 ∧
    (s3.threatAlerts a).isVerified = true := by
  have hE : s0.threatAlerts a = ThreatAlert.empty := hwf.1 h0
  obtain ⟨c1, i1, v1, _, _, _, _, _⟩ :=
    submit_spec s0 s1 c a ty cf ca tx zk n1 ha hwf h1
  have hwf1 : AlertWF s1 a :=
    submit_wf_preserved s0 s1 c a ty cf ca tx zk n1 a ha hwf ha h1
  obtain ⟨c2, i2, v2, _, _, _, _, _⟩ :=
    submit_spec s1 s2 c a ty cf ca tx zk n2 ha hwf1 h2
  have hwf2 : AlertWF s2 a :=
    submit_wf_preserved s1 s2 c a ty cf ca tx zk n2 a ha hwf1 ha h2
  obtain ⟨c3, i3, v3, _, _, _, _, _⟩ :=
    submit_spec s2 s3 c a ty cf ca tx zk n3 ha hwf2 h3
  have hc1 : (s1.threatAlerts a).nodeConsensus = 1 := by
    rw [c1, hE]
    rfl
  have hv1 : (s1.threatAlerts a).isVerified = false := by
    cases hb : (s1.threatAlerts a).isVerified with
    | false => rfl
    | true =>
      exfalso
      rcases v1.mp hb with hx | hx
      · rw [hE] at hx
        exact Bool.noConfusion hx
      · exact hx.1 h0
  have hc2 : (s2.threatAlerts a).nodeConsensus = 2 := by
    rw [c2, hc1]
  have hv2 : (s2.threatAlerts a).isVerified = false := by
    cases hb : (s2.threatAlerts a).isVerified with
    | false => rfl
    | true =>
      exfalso
      rcases v2.mp hb with hx | hx
      · rw [hv1] at hx
        exact Bool.noConfusion hx
      · exact absurd hx.2 (by rw [hc1]; decide)
  have hc3 : (s3.threatAlerts a).nodeConsensus = 3 := by
    rw [c3, hc2]
  have hv3 : (s3.threatAlerts a).isVerified = true := by
    refine v3.mpr (Or.inr ⟨?_, ?_⟩)
    · rw [i2]
      exact ha
    · rw [hc2]
      decide
  exact ⟨submit_authorized s0 s1 c a ty cf ca tx zk n1 h1,
    hc1, hv1, hc2, hv2, hc3, hv3⟩

/-- Oracle state for the C10 witness: node 7 authorized, no alerts yet. -/
def c10State : State :=
  { initState 0 1 (fun _ _ => 0) with authorizedNodes := fun n => n = 7 }

/-- State after node 7's first submission of alert 6 (creation). -/
def c10S1 : State :=
  (submitThreatAlert c10State 7 6 "exploit" 90 11 22 0 1).getD c10State

/-- State after node 7's second submission of alert 6. -/
def c10S2 : State :=
  (submitThreatAlert c10S1 7 6 "exploit" 90 11 22 0 2).getD c10S1

/-- Witness for C10 at concrete inputs: node 7 alone submits alert 6
three times; the counts run 1, 2, 3 and the third call verifies. -/
theorem c10_single_node_consensus_witness :
    ∃ s3 : State,
      submitThreatAlert c10S2 7 6 "exploit" 90 11 22 0 3 = some s3 ∧
      c10State.authorizedNodes 7 = true ∧
      (c10S1.threatAlerts 6).nodeConsensus = 1 ∧
      (c10S2.threatAlerts 6).nodeConsensus = 2 ∧
      (s3.threatAlerts 6).nodeConsensus = 3 ∧
      (s3.threatAlerts 6).isVerified = true := by
  obtain ⟨s3, hs3⟩ : ∃ s3 : State,
      submitThreatAlert c10S2 7 6 "exploit" 90 11 22 0 3 = some s3 := by
    unfold submitThreatAlert
    dsimp only
    rw [if_neg (by decide), if_neg (by decide), if_pos (by decide)]
    exact ⟨_, rfl⟩
  obtain ⟨hauth, hc1, _, hc2, _, hc3, hv3⟩ :=
    c10_single_node_consensus c10State c10S1 c10S2 s3 7 6 "exploit" 90 11 22 0
      1 2 3 (by decide) ⟨fun _ => rfl, fun hz => absurd rfl hz⟩ rfl rfl rfl hs3
  exact ⟨s3, hs3, hauth, hc1, hc2, hc3, hv3⟩

/-- Dependency soundness of the DAG store: every processed vertex has
all of its declared dependencies processed. -/
def DepsInv (s : State) : Prop :=
  ∀ t d : Nat, (s.dagTransactions t).isProcessed = true →
    d ∈ (s.dagTransactions t).dependencies →
    (s.dagTransactions d).isProcessed = true

/-- Generating a threat alert does not touch the DAG store. -/
theorem gta_dag (s : State) (tx : DAGTransaction) (lvl now : Nat) :
    (_generateThreatAlert s tx lvl now).dagTransactions = s.dagTransactions :=
  rfl

/-- A batch-loop iteration either leaves a slot unchanged, or - only
for its own vertex and only when the readiness check passes - stores it
back with the analyzed threat level and the processed flag set. -/
theorem processStep_dag (now : Nat) (s : State) (t g : Nat) :
    (processStep now s t).dagTransactions g = s.dagTransactions g ∨
      (g = t ∧ _canProcessTransaction s (s.dagTransactions t) = true ∧
        (processStep now s t).dagTransactions g
          = { s.dagTransactions t with
              threatLevel := _analyzeThreatLevel (s.dagTransactions t)
              isProcessed := true }) := by
  unfold processStep
  dsimp only
  split_ifs with hc hl
  · rw [gta_dag]
    dsimp only
    by_cases hg : g = t
    · subst hg
      exact Or.inr ⟨rfl, hc, Function.update_same _ _ _⟩
    · exact Or.inl (Function.update_noteq hg _ _)
  · dsimp only
    by_cases hg : g = t
    · subst hg
      exact Or.inr ⟨rfl, hc, Function.update_same _ _ _⟩
    · exact Or.inl (Function.update_noteq hg _ _)
  · exact Or.inl rfl

/-- A batch-loop iteration never clears a processed flag. -/
theorem processStep_mono (now : Nat) (s : State) (t g : Nat)
    (h : (s.dagTransactions g).isProcessed = true) :
    ((processStep now s t).dagTransactions g).isProcessed = true := by
  rcases processStep_dag now s t g with he | ⟨hg, _, he⟩
  · rw [he]
    exact h
  · rw [he]

/-- A batch-loop iteration keeps every slot's dependency list. -/
theorem processStep_deps (now : Nat) (s : State) (t g : Nat) :
    ((processStep now s t).dagTransactions g).dependencies
      = (s.dagTransactions g).dependencies := by
  rcases processStep_dag now s t g with he | ⟨hg, _, he⟩
  · rw [he]
  · subst hg
    rw [he]

/-- A batch-loop iteration preserves dependency soundness. -/
theorem processStep_inv (now : Nat) (s : State) (t : Nat)
    (hinv : DepsInv s) : DepsInv (processStep now s t) := by
  intro u d hu hd
  rw [processStep_deps] at hd
  rcases processStep_dag now s t u with he | ⟨hg, hcan, he⟩
  · rw [he] at hu
    exact processStep_mono now s t d (hinv u d hu hd)
  · subst hg
    unfold _canProcessTransaction at hcan
    rw [List.all_eq_true] at hcan
    exact processStep_mono _ _ _ _ (hcan d hd)

/-- The whole batch loop preserves dependency soundness. -/
theorem processFoldl_inv (now : Nat) (l : List Nat) (s : State)
    (hinv : DepsInv s) : DepsInv (List.foldl (processStep now) s l) := by
  induction l generalizing s with
  | nil => exact hinv
  | cons x xs ih => exact ih _ (processStep_inv now s x hinv)

/-- _processDAGBatch preserves dependency soundness. -/
theorem processBatch_inv (s : State) (now : Nat) (hinv : DepsInv s) :
    DepsInv (_processDAGBatch s now) :=
  processFoldl_inv now s.pendingDAGTxs s hinv

/-- Storing a fresh unprocessed vertex preserves dependency soundness:
the overwritten slot cannot be a dependency of any processed vertex. -/
theorem addDAG_store_inv (s : State)
    (txHash fromAddr toAddr value : Nat) (data deps : List Nat) (now : Nat)
    (hinv : DepsInv s) (hp : ¬(s.dagTransactions txHash).isProcessed = true) :
    DepsInv { s with
      dagTransactions := Function.update s.dagTransactions txHash
        ⟨txHash, fromAddr, toAddr, value, data, now, 0, false, deps⟩
      pendingDAGTxs := s.pendingDAGTxs ++ [txHash]
      totalDAGTransactions := s.totalDAGTransactions + 1 } := by
  intro u d hu hd
  dsimp only at hu hd ⊢
  by_cases hu_t : u = txHash
  · subst hu_t
    rw [Function.update_same] at hu
    exact Bool.noConfusion hu
  · rw [Function.update_noteq hu_t] at hu hd
    by_cases hd_t : d = txHash
    · subst hd_t
      exact absurd (hinv _ _ hu hd) hp
    · rw [Function.update_noteq hd_t]
      exact hinv u d hu hd

/-- addDAGTransaction preserves dependency soundness. -/
theorem addDAG_inv (s s' : State) (caller txHash fromAddr toAddr value : Nat)
    (data deps : List Nat) (now : Nat) (hinv : DepsInv s)
    (h : addDAGTransaction s caller txHash fromAddr toAddr value data deps now
      = some s') : DepsInv s' := by
  unfold addDAGTransaction at h
  dsimp only at h
  split_ifs at h with h1 h2 h3
  · cases h
    exact processBatch_inv _ now
      (addDAG_store_inv s txHash fromAddr toAddr value data deps now hinv h2)
  · cases h
    exact addDAG_store_inv s txHash fromAddr toAddr value data deps now hinv h2

/-- The owner-triggered batch entry point preserves dependency
soundness. -/
theorem processDAGBatch_inv (s s' : State) (caller now : Nat)
    (hinv : DepsInv s) (h : processDAGBatch s caller now = some s') :
    DepsInv s' := by
  unfold processDAGBatch at h
  split_ifs at h with h1
  cases h
  exact processBatch_inv s now hinv

/-- A threat-alert submission does not touch the DAG store. -/
theorem submit_dag_inv (s s' : State) (c b : Nat) (ty : String)
    (cf ca tx zk now : Nat) (hinv : DepsInv s)
    (h : submitThreatAlert s c b ty cf ca tx zk now = some s') :
    DepsInv s' := by
  have hdg := (submit_fields s s' c b ty cf ca tx zk now h).2.2.2.1
  intro u d hu hd
  rw [hdg] at hu hd ⊢
  exact hinv u d hu hd

/-- The cross-chain relay callback does not touch the DAG store. -/
theorem fulfill_dag (s : State) (key : Nat × Nat) :
    (fulfillCrossChainRelay s key).dagTransactions = s.dagTransactions := by
  unfold fulfillCrossChainRelay
  rcases hx : s.crossChainAlerts key with _ | r
  · rfl
  · rfl

/-- setNodeAuthorization does not touch the DAG store. -/
theorem setAuth_dag (s s' : State) (caller node : Nat) (b : Bool)
    (h : setNodeAuthorization s caller node b = some s') :
    s'.dagTransactions = s.dagTransactions := by
  unfold setNodeAuthorization at h
  split_ifs at h with h1
  cases h
  rfl

/-- setSupportedChain does not touch the DAG store. -/
theorem setChain_dag (s s' : State) (caller chainId : Nat) (b : Bool)
    (h : setSupportedChain s caller chainId b = some s') :
    s'.dagTransactions = s.dagTransactions := by
  unfold setSupportedChain at h
  split_ifs at h with h1
  cases h
  rfl

/-- The constructor state is dependency sound (nothing is processed). -/
theorem init_deps_inv (deployer chainid : Nat) (kp : Nat → Nat → Nat) :
    DepsInv (initState deployer chainid kp) := by
  intro u d hu _
  exact Bool.noConfusion hu

/-- Dependency soundness holds in every reachable oracle state. -/
theorem oracle_reach_deps (deployer chainid : Nat) (kp : Nat → Nat → Nat)
    (s : State) (h : Reach (initState deployer chainid kp) s) : DepsInv s := by
  induction h with
  | refl => exact init_deps_inv deployer chainid kp
  | step hr hs ih =>
    cases hs with
    | addDAGTransaction caller txHash fromAddr toAddr value data deps now heq =>
      exact addDAG_inv _ _ caller txHash fromAddr toAddr value data deps now
        ih heq
    | processDAGBatch caller now heq =>
      exact processDAGBatch_inv _ _ caller now ih heq
    | submitThreatAlert c a ty cf ca tx zk now heq =>
      exact submit_dag_inv _ _ c a ty cf ca tx zk now ih heq
    | fulfillCrossChainRelay key heq =>
      subst heq
      intro u d hu hd
      rw [fulfill_dag] at hu hd ⊢
      exact ih u d hu hd
    | setNodeAuthorization caller node authorized heq =>
      have hdg := setAuth_dag _ _ caller node authorized heq
      intro u d hu hd
      rw [hdg] at hu hd ⊢
      exact ih u d hu hd
    | setSupportedChain caller chainId supported heq =>
      have hdg := setChain_dag _ _ caller chainId supported heq
      intro u d hu hd
      rw [hdg] at hu hd ⊢
      exact ih u d hu hd

/-- Claim C8: a DAG vertex is marked processed only when the readiness
check sees every declared dependency already processed - a batch-loop
iteration that flips a vertex's flag has a passing
_canProcessTransaction check at that moment, and dependency soundness
(`DepsInv`) holds in every state reachable from the constructor
state. -/
theorem c8_processed_only_with_processed_deps :
    (∀ (s : State) (now t : Nat),
      (s.dagTransactions t).isProcessed = false →
      ((processStep now s t).dagTransactions t).isProcessed = true →
      _canProcessTransaction s (s.dagTransactions t) = true) ∧
    (∀ (deployer chainid : Nat) (kp : Nat → Nat → Nat) (s : State),
      Reach (initState deployer chainid kp) s → DepsInv s) := by
  constructor
  · intro s now t h0 h1
    rcases processStep_dag now s t t with he | ⟨_, hc, _⟩
    · rw [he, h0] at h1
      exact Bool.noConfusion h1
    · exact hc
  · intro deployer chainid kp s h
    exact oracle_reach_deps deployer chainid kp s h

/-- Initial oracle state for the C8 witness run. -/
def c8w0 : State := initState 0 1 (fun _ _ => 0)

/-- Node 7 authorized by the owner. -/
def c8w1 : State := (setNodeAuthorization c8w0 0 7 true).getD c8w0

/-- Vertex 1 (no dependencies) added by node 7. -/
def c8w2 : State := (addDAGTransaction c8w1 7 1 100 200 0 [] [] 10).getD c8w1

/-- First owner-triggered batch: vertex 1 is processed. -/
def c8w3 : State := (processDAGBatch c8w2 0 11).getD c8w2

/-- Vertex 2 (depending on vertex 1) added by node 7. -/
def c8w4 : State := (addDAGTransaction c8w3 7 2 100 200 0 [] [1] 12).getD c8w3

/-- Second owner-triggered batch: vertex 2 is processed. -/
def c8w5 : State := (processDAGBatch c8w4 0 13).getD c8w4

/-- Witness for C8 at concrete inputs: processing vertex 1 in `c8w2`
passes the readiness check, and the reachable state `c8w5` - with
vertex 2 processed after its dependency 1 - is dependency sound. -/
theorem c8_processed_only_with_processed_deps_witness :
    _canProcessTransaction c8w2 (c8w2.dagTransactions 1) = true ∧
    DepsInv c8w5 ∧
    (c8w5.dagTransactions 2).isProcessed = true ∧
    (c8w5.dagTransactions 1).isProcessed = true := by
  have hreach : Reach (initState 0 1 (fun _ _ => 0)) c8w5 :=
    Reach.step
      (Reach.step
        (Reach.step
          (Reach.step
            (Reach.step Reach.refl
              (Step.setNodeAuthorization c8w0 c8w1 0 7 true rfl))
            (Step.addDAGTransaction c8w1 c8w2 7 1 100 200 0 [] [] 10 rfl))
          (Step.processDAGBatch c8w2 c8w3 0 11 rfl))
        (Step.addDAGTransaction c8w3 c8w4 7 2 100 200 0 [] [1] 12 rfl))
      (Step.processDAGBatch c8w4 c8w5 0 13 rfl)
  refine ⟨?_,
    c8_processed_only_with_processed_deps.2 0 1 (fun _ _ => 0) c8w5 hreach,
    by decide, by decide⟩
  exact c8_processed_only_with_processed_deps.1 c8w2 11 1 (by decide)
    (by decide)

/-- Initial oracle state for the C3 run. -/
def c3v0 : State := initState 0 1 (fun _ _ => 0)

/-- Node 7 authorized by the owner. -/
def c3v1 : State := (setNodeAuthorization c3v0 0 7 true).getD c3v0

/-- T2 (hash 2, declared dependency on unsubmitted T1 = hash 1)
added. -/
def c3v2 : State := (addDAGTransaction c3v1 7 2 100 200 0 [] [1] 10).getD c3v1

/-- First batch run: T2 is not ready, yet the whole queue is deleted. -/
def c3v3 : State := (processDAGBatch c3v2 0 11).getD c3v2

/-- T1 (hash 1, no dependencies) added afterwards. -/
def c3v4 : State := (addDAGTransaction c3v3 7 1 100 200 0 [] [] 12).getD c3v3

/-- Second batch run: T1 is processed; T2 is no longer pending. -/
def c3v5 : State := (processDAGBatch c3v4 0 13).getD c3v4

/-- Third batch run: nothing is pending any more. -/
def c3v6 : State := (processDAGBatch c3v5 0 14).getD c3v5

/-- Claim C3 is refuted by the code: _processDAGBatch ends by deleting
the whole pending queue, dropping not-ready vertices. In this run T2
(declaring a dependency on the unsubmitted T1) is pending before the
first batch, but that batch leaves it unprocessed AND removes it from
the queue; after T1 is later added and processed - so T2's readiness
check would now pass - further batches still never process T2. -/
theorem c3_pending_vertex_dropped :
    (c3v2.pendingDAGTxs = [2] ∧
      (c3v2.dagTransactions 2).dependencies = [1] ∧
      processDAGBatch c3v2 0 11 = some c3v3 ∧
      (c3v3.dagTransactions 2).isProcessed = false ∧
      c3v3.pendingDAGTxs = []) ∧
    (addDAGTransaction c3v3 7 1 100 200 0 [] [] 12 = some c3v4 ∧
      processDAGBatch c3v4 0 13 = some c3v5 ∧
      (c3v5.dagTransactions 1).isProcessed = true ∧
      _canProcessTransaction c3v5 (c3v5.dagTransactions 2) = true ∧
      (c3v5.dagTransactions 2).isProcessed = false ∧
      c3v5.pendingDAGTxs = []) ∧
    (processDAGBatch c3v5 0 14 = some c3v6 ∧
      (c3v6.dagTransactions 2).isProcessed = false ∧
      c3v6.pendingDAGTxs = []) :=
  ⟨⟨by decide, by decide, rfl, by decide, by decide⟩,
   ⟨rfl, rfl, by decide, by decide, by decide, by decide⟩,
   ⟨rfl, by decide, by decide⟩⟩


end Oracle

end DAGShield
